import Mathlib

/-!
# New-view handling of the simplebft engine

A shallow embedding of `orderer/sbft/simplebft/newview.go`:
`maybeSendNewView`, `checkNewViewSignatures`, `handleNewView` and
`processNewView`.

* Pointers that the file dereferences or compares with `nil` are `Option`s.
* A Go byte slice is an `Option (List Nat)`: `none` is the nil slice, which
  `reflect.DeepEqual` tells apart from the empty slice and `bytes.Equal` does not.
* `uint64` values are only compared, never computed with, so they are `Nat`s.
* Methods of `SBFT` that live in other files of the package are the fields of `Env`;
  those that act on the replica (`broadcast`, `sendViewChange`, `discardBacklog`,
  `handleCheckedPreprepare`, `processBacklog`) are recorded, in call order, as the
  `Event`s of a trace, and what they do to the replica is outside this development.
* A handler returns `none` when the Go code stops with a run-time fault (index out of
  range, nil dereference), and `some (state, trace)` otherwise.
-/

namespace Simplebft

/-- A Go `[]byte`; `none` is the nil slice. -/
abbrev Bytes := Option (List Nat)

/-- The function `bytes.Equal`: same length and same bytes, a nil slice being empty. -/
def bytesEqual (a b : Bytes) : Bool :=
  a.getD [] == b.getD []

/-- Modelled from the spec: the message type `SeqView` is declared outside newview.go;
a (view, sequence) pair. -/
structure SeqView where
  View : Nat
  Seq : Nat
deriving DecidableEq, Repr

/-- Modelled from the spec: the message type `Subject` (the reinstatement decision) is
declared outside newview.go; newview.go reads `Seq.Seq` and `Digest`. -/
structure Subject where
  Seq : Option SeqView
  Digest : Bytes
deriving DecidableEq, Repr

/-- Modelled from the spec: the message type `Batch` is declared outside newview.go;
newview.go reads `Header` and otherwise hands batches to `Hash`, `DecodeHeader`
and `checkBatch`. -/
structure Batch where
  Header : Bytes
  Payloads : List Bytes
deriving DecidableEq, Repr

/-- Modelled from the spec: the type `BatchHeader` returned by `DecodeHeader` is declared
outside newview.go; newview.go reads `Seq`. -/
structure BatchHeader where
  Seq : Nat
  PrevHash : Bytes
  DataHash : Bytes
deriving DecidableEq, Repr

/-- Modelled from the spec: the message type `Signed` (a signed payload) is declared
outside newview.go, which never looks inside it. -/
structure Signed where
  Data : Bytes
  Signature : Bytes
deriving DecidableEq, Repr

/-- Modelled from the spec: the message type `ViewChange` (a vote) is declared outside
newview.go; newview.go reads `View` and `Checkpoint`. -/
structure ViewChange where
  View : Nat
  Pset : List Subject
  Qset : List Subject
  Checkpoint : Option Batch
deriving DecidableEq, Repr

/-- Modelled from the spec: the message type `NewView` is declared outside newview.go.
`Vset` is a Go map from replica id to `*Signed`; it is kept as the list of its
entries in the order a `range` loop visits them. -/
structure NewView where
  View : Nat
  Vset : List (Nat × Option Signed)
  Xset : Option Subject
  Batch : Option Batch
deriving DecidableEq, Repr

/-- Modelled from the spec: the message type `Preprepare` (a proposal) is declared outside
newview.go. -/
structure Preprepare where
  Seq : Option SeqView
  Batch : Option Batch
deriving DecidableEq, Repr

/-- Modelled from the spec: the per-peer record `replicaInfo` is declared outside
newview.go; these are the fields newview.go reads or writes. -/
structure ReplicaInfo where
  viewchange : Option ViewChange
  signedViewchange : Option Signed
  newview : Option NewView
deriving DecidableEq, Repr

/-- Modelled from the spec: the record `reqInfo` of the request in flight (`s.cur`) is
declared outside newview.go; newview.go reads `subject.Digest` and `preprep.Batch`. -/
structure ReqInfo where
  subject : Subject
  preprep : Option Preprepare
deriving DecidableEq, Repr

/-- Modelled from the spec: the replica `SBFT` is declared outside newview.go; these are
the fields newview.go reads or writes. `replicaState` is a slice indexed by
replica id. -/
structure SBFT where
  view : Nat
  activeView : Bool
  replicaState : List ReplicaInfo
  lastNewViewSent : Option NewView
  cur : ReqInfo
deriving DecidableEq, Repr

/-- The collaborators of newview.go that compute a result: methods of `SBFT` and of the
message types defined in other files of the package. An `Except.error` is a
returned Go `error`. -/
structure Env where
  /-- The method `s.primaryIDView(v)`. -/
  primaryIDView : Nat → Nat
  /-- The method `s.primaryID()`. -/
  primaryID : SBFT → Nat
  /-- The method `s.checkSig(svc, src, vc)`: the decoded vote, or an error. -/
  checkSig : Option Signed → Nat → Except String ViewChange
  /-- The method `s.checkBatch(b, checkData, needSigs)`; only the error is used here. -/
  checkBatch : Option Batch → Bool → Bool → Except String Unit
  /-- The method `s.makeXset(vcs)`: decision, synthesized batch, readiness. -/
  makeXset : List ViewChange → Option Subject × Option Batch × Bool
  /-- The method `b.Hash()` on a non-nil batch. -/
  Hash : Batch → Bytes
  /-- The method `b.DecodeHeader()` on a non-nil batch; `none` when it yields no header. -/
  DecodeHeader : Batch → Option BatchHeader

/-- The calls newview.go makes to the collaborators that act on the replica or the network. -/
inductive Event where
  | broadcast (nv : NewView)
  | sendViewChange
  | discardBacklog (id : Nat)
  | handleCheckedPreprepare (pp : Preprepare)
  | processBacklog
deriving DecidableEq, Repr

/-- What a handler returns: `none` is a run-time fault of the Go code. -/
abbrev Outcome := Option (SBFT × List Event)

/-! ## maybeSendNewView -/

/-- Line 26: `s.lastNewViewSent != nil && s.lastNewViewSent.View == s.view`. -/
def alreadySent (s : SBFT) : Bool :=
  match s.lastNewViewSent with
  | none => false
  | some lnv => lnv.View == s.view

/-- Lines 33-38: the loop over `s.replicaState` from index `i` on, giving the entries
added to `vset` and the votes appended to `vcs`. -/
def collectVotes (view : Nat) : Nat → List ReplicaInfo → List (Nat × Option Signed) × List ViewChange
  | _, [] => ([], [])
  | i, state :: rest =>
    let r := collectVotes view (i + 1) rest
    match state.viewchange with
    | none => r
    | some vc =>
      if vc.View == view then ((i, state.signedViewchange) :: r.1, vc :: r.2) else r

/-- Lines 56-65: build the message, remember it, broadcast it. -/
def sendNewView (s : SBFT) (vset : List (Nat × Option Signed)) (xset : Option Subject)
    (batch : Option Batch) : Outcome :=
  let nv : NewView := { View := s.view, Vset := vset, Xset := xset, Batch := batch }
  some ({ s with lastNewViewSent := some nv }, [Event.broadcast nv])

/-- The function `maybeSendNewView` (lines 25-66). -/
def maybeSendNewView (env : Env) (s : SBFT) : Outcome :=
  if alreadySent s then some (s, [])
  else
    let votes := collectVotes s.view 0 s.replicaState -- vset := votes.1, vcs := votes.2
    let r := env.makeXset votes.2 -- xset := r.1, newBatch := r.2.1, ok := r.2.2
    if !r.2.2 then some (s, [])
    else
      match r.2.1 with
      | some nb => sendNewView s votes.1 r.1 (some nb)
      | none =>
        match r.1 with
        | none => none -- the read of `xset.Digest` on a nil `xset`
        | some x =>
          if s.cur.subject.Digest = x.Digest then
            match s.cur.preprep with
            | none => none -- the read of `s.cur.preprep.Batch` on a nil `preprep`
            | some pp => sendNewView s votes.1 (some x) pp.Batch
          else
            match x.Seq with
            | none => none -- the read of `xset.Seq.Seq` for the warning
            | some _ => sendNewView s votes.1 none none

/-! ## checkNewViewSignatures -/

/-- Lines 71-78: the body of the loop for one entry of `nv.Vset`. -/
def checkVote (env : Env) (nv : NewView) (vcsrc : Nat) (svc : Option Signed) :
    Except String ViewChange :=
  match env.checkSig svc vcsrc with
  | .error e => .error e
  | .ok vc =>
    let err := env.checkBatch vc.Checkpoint false true
    if vc.View ≠ nv.View then .error "view does not match"
    else
      match err with
      | .error e => .error e
      | .ok _ => .ok vc

/-- Lines 70-83: the loop over the entries of `nv.Vset`; an error names the entry. -/
def checkVotes (env : Env) (nv : NewView) : List (Nat × Option Signed) →
    Except (Nat × String) (List ViewChange)
  | [] => .ok []
  | (vcsrc, svc) :: rest =>
    match checkVote env nv vcsrc svc with
    | .error e => .error (vcsrc, e)
    | .ok vc =>
      match checkVotes env nv rest with
      | .error e => .error e
      | .ok vcs => .ok (vc :: vcs)

/-- The function `checkNewViewSignatures` (lines 68-86). -/
def checkNewViewSignatures (env : Env) (nv : NewView) : Except (Nat × String) (List ViewChange) :=
  checkVotes env nv nv.Vset

/-! ## processNewView -/

/-- The function `processNewView` (lines 152-173). -/
def processNewView (env : Env) (s : SBFT) : Outcome :=
  if s.activeView then some (s, [])
  else
    match s.replicaState[env.primaryIDView s.view]? with
    | none => none -- index out of range
    | some info =>
      match info.newview with
      | none => some (s, [])
      | some nv =>
        if nv.View ≠ s.view then some (s, [])
        else
          let s1 := { s with activeView := true }
          let id := env.primaryID s1
          match nv.Batch with
          | none => none -- `nv.Batch.DecodeHeader()` on a nil batch
          | some b =>
            match env.DecodeHeader b with
            | none => none
            | some h =>
              let pp : Preprepare := { Seq := some { Seq := h.Seq, View := s1.view }, Batch := some b }
              some (s1, [Event.discardBacklog id, Event.handleCheckedPreprepare pp,
                Event.processBacklog])

/-! ## handleNewView -/

/-- The warning under which `handleNewView` gives a certificate up and files a vote. -/
inductive Reject where
  | signatures (vcsrc : Nat) (err : String)
  | noBatch
  | xsetIncorrect
  | nullBatchMismatch
  | digestMismatch
  | invalidBatch (err : String)
deriving DecidableEq, Repr

/-- Where the checks of `handleNewView` (lines 89-140) leave the function: at one of
its early returns, at line 142 (`accepted`), or in a run-time fault. -/
inductive Verdict where
  | forged
  | stale
  | rejected (r : Reject)
  | accepted
  | fault
deriving DecidableEq, Repr

/-- Line 94: `onv != nil && onv.View >= nv.View`. -/
def isStale (onv : Option NewView) (nv : NewView) : Bool :=
  match onv with
  | none => false
  | some o => decide (o.View ≥ nv.View)

/-- Lines 120-132: the attached batch against the decision, or against the synthesized
batch when the decision is nil. -/
def checkDigest (env : Env) (nv : NewView) (b : Batch) (newBatch : Option Batch) : Verdict :=
  match nv.Xset with
  | none =>
    match newBatch with
    | none => Verdict.fault -- `newBatch.Hash()` on a nil batch
    | some nb =>
      if !bytesEqual (env.Hash b) (env.Hash nb) then Verdict.rejected Reject.nullBatchMismatch
      else Verdict.accepted
  | some x =>
    if !bytesEqual (env.Hash b) x.Digest then Verdict.rejected Reject.digestMismatch
    else Verdict.accepted

/-- Lines 99-140 of `handleNewView`: the checks on the content of the certificate. -/
def checkContent (env : Env) (nv : NewView) : Verdict :=
  match checkNewViewSignatures env nv with
  | .error e => Verdict.rejected (Reject.signatures e.1 e.2)
  | .ok vcs =>
    match nv.Batch with
    | none => Verdict.rejected Reject.noBatch
    | some b =>
      let r := env.makeXset vcs -- xset := r.1, newBatch := r.2.1, ok := r.2.2
      if !r.2.2 || !decide (nv.Xset = r.1) then Verdict.rejected Reject.xsetIncorrect
      else
        match checkDigest env nv b r.2.1 with
        | Verdict.accepted =>
          match env.checkBatch (some b) true false with
          | .error e => Verdict.rejected (Reject.invalidBatch e)
          | .ok _ => Verdict.accepted
        | v => v

/-- Lines 89-140 of `handleNewView`: the checks, in order. -/
def validateNewView (env : Env) (s : SBFT) (nv : NewView) (src : Nat) : Verdict :=
  if src ≠ env.primaryIDView nv.View then Verdict.forged
  else
    match s.replicaState[env.primaryIDView nv.View]? with
    | none => Verdict.fault -- index out of range
    | some r =>
      if isStale r.newview nv then Verdict.stale
      else checkContent env nv

/-- Line 142: `s.replicaState[s.primaryIDView(nv.View)].newview = nv`. -/
def recordNewView (env : Env) (s : SBFT) (nv : NewView) : SBFT :=
  let rs := List.modify (fun r : ReplicaInfo => { r with newview := some nv })
    (env.primaryIDView nv.View) s.replicaState
  { s with replicaState := rs }

/-- Lines 144-147: move to the certificate's view when it is greater. -/
def advanceView (s : SBFT) (nv : NewView) : SBFT :=
  if nv.View > s.view then { s with view := nv.View, activeView := false } else s

/-- The function `handleNewView` (lines 88-150). -/
def handleNewView (env : Env) (s : SBFT) (nv : NewView) (src : Nat) : Outcome :=
  match validateNewView env s nv src with
  | Verdict.forged => some (s, [])
  | Verdict.stale => some (s, [])
  | Verdict.rejected _ => some (s, [Event.sendViewChange])
  | Verdict.fault => none
  | Verdict.accepted => processNewView env (advanceView (recordNewView env s nv) nv)

/-! ## What the claims speak about -/

/-- The vote an entry of `Vset` decodes to, when its signature verifies. -/
def decodeVote (env : Env) (e : Nat × Option Signed) : Option ViewChange :=
  match env.checkSig e.2 e.1 with
  | .error _ => none
  | .ok vc => some vc

/-- The votes decoded from the entries of `nv.Vset`, in the order of the entries. -/
def decodedVotes (env : Env) (nv : NewView) : List ViewChange :=
  nv.Vset.filterMap (decodeVote env)

/-- Vote authenticity of one entry: the signature verifies against the key, the vote is
for the certificate's view, and its checkpoint passes `checkBatch`. -/
def VoteAuthentic (env : Env) (nv : NewView) (e : Nat × Option Signed) : Prop :=
  ∃ vc, env.checkSig e.2 e.1 = .ok vc ∧ vc.View = nv.View ∧
    ∃ u, env.checkBatch vc.Checkpoint false true = .ok u

/-- The certificate stored for the primary of `nv.View` is absent or for a strictly
smaller view. -/
def Fresh (env : Env) (s : SBFT) (nv : NewView) : Prop :=
  ∃ r, s.replicaState[env.primaryIDView nv.View]? = some r ∧
    (r.newview = none ∨ ∃ onv, r.newview = some onv ∧ onv.View < nv.View)

/-- The resolver, run over the decoded votes, is ready and returns the decision of `nv`. -/
def DecisionRederived (env : Env) (nv : NewView) : Prop :=
  (env.makeXset (decodedVotes env nv)).2.2 = true ∧
    nv.Xset = (env.makeXset (decodedVotes env nv)).1

/-- The hash of batch `b` is the hash of the synthesized batch when the decision of `nv`
is nil, and the digest of the decision otherwise. -/
def DigestConsistent (env : Env) (nv : NewView) (b : Batch) : Prop :=
  match nv.Xset with
  | none => ∃ nb, (env.makeXset (decodedVotes env nv)).2.1 = some nb ∧
      bytesEqual (env.Hash b) (env.Hash nb) = true
  | some x => bytesEqual (env.Hash b) x.Digest = true

/-- The checks of `handleNewView` after source and freshness, as the specification lists
them: vote authenticity, batch presence, decision re-derivation, digest
consistency, batch validation. -/
def ContentValid (env : Env) (nv : NewView) : Prop :=
  (∀ e ∈ nv.Vset, VoteAuthentic env nv e) ∧
    ∃ b, nv.Batch = some b ∧ DecisionRederived env nv ∧ DigestConsistent env nv b ∧
      ∃ u, env.checkBatch (some b) true false = .ok u

/-- All the conditions under which the specification has a certificate recorded. -/
def AcceptanceConditions (env : Env) (s : SBFT) (nv : NewView) (src : Nat) : Prop :=
  src = env.primaryIDView nv.View ∧ Fresh env s nv ∧ ContentValid env nv

/-- The certificate stored in the record of replica `id`, if any. -/
def storedNewView (s : SBFT) (id : Nat) : Option NewView :=
  match s.replicaState[id]? with
  | none => none
  | some r => r.newview

/-- The number of `NewView` broadcasts in a trace. -/
def broadcastCount : List Event → Nat
  | [] => 0
  | Event.broadcast _ :: tr => broadcastCount tr + 1
  | _ :: tr => broadcastCount tr

/-- The proposals fed to `handleCheckedPreprepare` in a trace, in order. -/
def proposals : List Event → List Preprepare
  | [] => []
  | Event.handleCheckedPreprepare pp :: tr => pp :: proposals tr
  | _ :: tr => proposals tr

/-- The forfeiture case of the issuer: the resolver, run over the votes recorded for the
current view, is ready, synthesizes no batch, and returns a decision whose digest
differs from the digest of the request in flight. -/
def Forfeits (env : Env) (s : SBFT) (x : Subject) : Prop :=
  (env.makeXset (collectVotes s.view 0 s.replicaState).2).2.2 = true ∧
    (env.makeXset (collectVotes s.view 0 s.replicaState).2).2.1 = none ∧
    (env.makeXset (collectVotes s.view 0 s.replicaState).2).1 = some x ∧
    x.Digest ≠ s.cur.subject.Digest

/-- The message `maybeSendNewView` assembles in the forfeiture case: the votes recorded
for the current view, no decision, no batch. -/
def forfeitMessage (s : SBFT) : NewView :=
  { View := s.view, Vset := (collectVotes s.view 0 s.replicaState).1, Xset := none,
    Batch := none }

/-- One step of a replica in a fixed view, as seen by the issuer: a call of
`maybeSendNewView`, or a change of the records in `replicaState`. -/
inductive IssuerStep where
  | issue
  | votes (rs : List ReplicaInfo)

/-- A sequence of issuer steps from state `s`: the final state and the calls made. A call
that faults ends the run. -/
def runIssuer (env : Env) : SBFT → List IssuerStep → SBFT × List Event
  | s, [] => (s, [])
  | s, IssuerStep.votes rs :: rest => runIssuer env { s with replicaState := rs } rest
  | s, IssuerStep.issue :: rest =>
    match maybeSendNewView env s with
    | none => (s, [])
    | some (s1, tr) => ((runIssuer env s1 rest).1, tr ++ (runIssuer env s1 rest).2)

/-- The certificate fails one of the content checks: an entry of `Vset` is not
authentic, no batch is attached, the decision is not re-derived, the digests are
inconsistent, or the batch does not pass `checkBatch`. -/
def ContentFails (env : Env) (nv : NewView) : Prop :=
  (∃ e ∈ nv.Vset, ¬ VoteAuthentic env nv e) ∨
    nv.Batch = none ∨
    ¬ DecisionRederived env nv ∨
    (∃ b, nv.Batch = some b ∧ ¬ DigestConsistent env nv b) ∨
    (∃ b err, nv.Batch = some b ∧ env.checkBatch (some b) true false = .error err)

/-- The contract of the resolver on a null decision: when it is ready and returns no
decision, it returns a synthesized batch. -/
def ResolverSynthesizes (env : Env) : Prop :=
  ∀ vcs, (env.makeXset vcs).2.2 = true → (env.makeXset vcs).1 = none →
    ∃ nb, (env.makeXset vcs).2.1 = some nb

/-- The guard of view activation: the view is not active and the record of the primary of
the current view holds a certificate `nv` for exactly the current view. -/
def Activates (env : Env) (s : SBFT) (nv : NewView) : Prop :=
  s.activeView = false ∧ storedNewView s (env.primaryIDView s.view) = some nv ∧
    nv.View = s.view

/-- The proposal binding batch `b` to the sequence of header `h` in view `v`. -/
def proposalFor (b : Batch) (h : BatchHeader) (v : Nat) : Preprepare :=
  { Seq := some { Seq := h.Seq, View := v }, Batch := some b }

/-- The calls of an activation: discard the backlog of `id`, feed the proposal, replay. -/
def activationTrace (id : Nat) (pp : Preprepare) : List Event :=
  [Event.discardBacklog id, Event.handleCheckedPreprepare pp, Event.processBacklog]

/-- The certificate `maybeSendNewView` assembles for state `s` with decision `xset` and
batch `batch` (lines 56-61). -/
def certificateOf (s : SBFT) (xset : Option Subject) (batch : Option Batch) : NewView :=
  { View := s.view, Vset := (collectVotes s.view 0 s.replicaState).1, Xset := xset,
    Batch := batch }

/-- The result of the resolver at line 40: `makeXset` over the votes recorded for the
current view (decision, synthesized batch, readiness). -/
def resolved (env : Env) (s : SBFT) : Option Subject × Option Batch × Bool :=
  env.makeXset (collectVotes s.view 0 s.replicaState).2

/-- The outcome of a `maybeSendNewView` call that broadcasts `nv`: `nv` is remembered as
`lastNewViewSent` and broadcast once. -/
def issued (s : SBFT) (nv : NewView) : Outcome :=
  some ({ s with lastNewViewSent := some nv }, [Event.broadcast nv])

/-- The resolver is insensitive to the order of the votes. -/
def PermInvariant (env : Env) : Prop :=
  ∀ l l' : List ViewChange, l.Perm l' → env.makeXset l = env.makeXset l'

/-- The contract of the resolver on a synthesized batch: it comes with a null decision
only. -/
def NullSynthesisOnly (env : Env) : Prop :=
  ∀ vcs nb, (env.makeXset vcs).2.1 = some nb → (env.makeXset vcs).1 = none

/-- Certificate `nv'` is certificate `nv` with the entries of its `Vset` map enumerated in
another order. -/
def SameCertificate (nv nv' : NewView) : Prop :=
  nv'.View = nv.View ∧ nv'.Vset.Perm nv.Vset ∧ nv'.Xset = nv.Xset ∧ nv'.Batch = nv.Batch

/-- The record of replica `id` holds a vote for view `view`, namely `vc`, signed as `sv`. -/
def RecordedVote (s : SBFT) (view id : Nat) (vc : ViewChange) (sv : Option Signed) : Prop :=
  ∃ r, s.replicaState[id]? = some r ∧ r.viewchange = some vc ∧ vc.View = view ∧
    sv = r.signedViewchange

/-- Under the collaborators `env`, every vote recorded at state `s` for its current view
verifies against the id of its record, decodes to the recorded vote, and has a
checkpoint that passes `checkBatch`. -/
def VotesVerify (env : Env) (s : SBFT) : Prop :=
  ∀ id vc sv, RecordedVote s s.view id vc sv →
    env.checkSig sv id = .ok vc ∧ ∃ u, env.checkBatch vc.Checkpoint false true = .ok u

/-- A verdict without what only the warning shows: the entry named by a signature error
and the text of that error. -/
def eraseText : Verdict → Verdict
  | Verdict.rejected (Reject.signatures _ _) => Verdict.rejected (Reject.signatures 0 "")
  | v => v

/-- The loop of lines 33-38 visiting the records of `replicaState`, each paired with its
index, in a given order. -/
def collectVotesOver (view : Nat) :
    List (Nat × ReplicaInfo) → List (Nat × Option Signed) × List ViewChange
  | [] => ([], [])
  | (src, state) :: rest =>
    let r := collectVotesOver view rest
    match state.viewchange with
    | none => r
    | some vc =>
      if vc.View == view then ((src, state.signedViewchange) :: r.1, vc :: r.2) else r

/-- Lines 40-65 of `maybeSendNewView`, from the entries `votes.1` and the votes `votes.2`
that the loop collected. -/
def issueWith (env : Env) (s : SBFT) (votes : List (Nat × Option Signed) × List ViewChange) :
    Outcome :=
  let r := env.makeXset votes.2
  if !r.2.2 then some (s, [])
  else
    match r.2.1 with
    | some nb => sendNewView s votes.1 r.1 (some nb)
    | none =>
      match r.1 with
      | none => none
      | some x =>
        if s.cur.subject.Digest = x.Digest then
          match s.cur.preprep with
          | none => none
          | some pp => sendNewView s votes.1 (some x) pp.Batch
        else
          match x.Seq with
          | none => none
          | some _ => sendNewView s votes.1 none none

/-- The function `maybeSendNewView` with its loop visiting the records in a given order. -/
def maybeSendNewViewOver (env : Env) (s : SBFT) (order : List (Nat × ReplicaInfo)) : Outcome :=
  if alreadySent s then some (s, []) else issueWith env s (collectVotesOver s.view order)

/-- Two outcomes of the issuer at state `s` that differ at most in the order in which the
broadcast certificate lists its `Vset`: both fault, both return `s` without a
call, or both broadcast and remember the same certificate. -/
def SameIssue (s : SBFT) (o o' : Outcome) : Prop :=
  (o = none ∧ o' = none) ∨ (o = some (s, []) ∧ o' = some (s, [])) ∨
    ∃ nv nv', SameCertificate nv nv' ∧ o = issued s nv ∧ o' = issued s nv'

/-- The method `primaryID()` reads nothing but the current view. -/
def PrimaryByView (env : Env) : Prop :=
  ∀ s1 s2 : SBFT, s1.view = s2.view → env.primaryID s1 = env.primaryID s2

/-- The method `primaryID()` returns the primary of the current view. -/
def PrimaryOfCurrentView (env : Env) : Prop :=
  ∀ s : SBFT, env.primaryID s = env.primaryIDView s.view

/-- The active view is justified: if the view is active, the record of its primary holds a
certificate for exactly that view. -/
def Justified (env : Env) (s : SBFT) : Prop :=
  s.activeView = true →
    ∃ nv, storedNewView s (env.primaryIDView s.view) = some nv ∧ nv.View = s.view

/-- The vote of a record, if it is a vote for view `view`. -/
def matchingVote (view : Nat) (r : ReplicaInfo) : Option ViewChange :=
  match r.viewchange with
  | none => none
  | some vc => if vc.View = view then some vc else none

/-- The entry (replica id, signed vote) of a record paired with its index, if the record
holds a vote for view `view`. -/
def matchingEntry (view : Nat) (e : Nat × ReplicaInfo) : Option (Nat × Option Signed) :=
  match e.2.viewchange with
  | none => none
  | some vc => if vc.View = view then some (e.1, e.2.signedViewchange) else none

/-- The quorum set of the specification at state `s`: the votes recorded in `replicaState`
whose `View` is exactly `s.view`, in the order of the records; votes for any
other view are left out. -/
def matchingVotes (s : SBFT) : List ViewChange :=
  s.replicaState.filterMap (matchingVote s.view)

/-- The entries of the quorum set at state `s`: for each record holding a vote for exactly
`s.view`, its replica id with its signed vote. -/
def matchingEntries (s : SBFT) : List (Nat × Option Signed) :=
  (s.replicaState.enumFrom 0).filterMap (matchingEntry s.view)

/-! ## A four-replica instance, for evaluating the handlers -/

namespace Sample

/-- A signed vote of replica `id` for view `v`, carrying no request. -/
def vote (id v : Nat) : Signed :=
  { Data := some [v], Signature := some [id] }

/-- The batch the sample resolver synthesizes for a null decision. -/
def nullBatch : Batch :=
  { Header := some [0], Payloads := [] }

/-- The decoding of a signed payload: `[v]` is a vote for view `v` without requests,
`[v, n, d]` one with request digest `[d]` under way at sequence `n`; the
signature has to be the signer id. -/
def checkSig (svc : Option Signed) (src : Nat) : Except String ViewChange :=
  match svc with
  | some { Data := some [v], Signature := some [k] } =>
    if k = src then .ok { View := v, Pset := [], Qset := [], Checkpoint := none }
    else .error "bad signature"
  | some { Data := some [v, n, d], Signature := some [k] } =>
    if k = src then
      .ok { View := v, Pset := [{ Seq := some { View := v - 1, Seq := n }, Digest := some [d] }],
            Qset := [], Checkpoint := none }
    else .error "bad signature"
  | _ => .error "malformed"

/-- A resolver for four replicas: ready from three votes on, it reinstates the first
request found under way, and otherwise synthesizes `nullBatch`. -/
def makeXset (vcs : List ViewChange) : Option Subject × Option Batch × Bool :=
  if vcs.length < 3 then (none, none, false)
  else
    match vcs.flatMap (fun vc => vc.Pset) with
    | [] => (none, some nullBatch, true)
    | x :: _ => (some x, none, true)

/-- The header of a sample batch is its sequence number followed by a content byte. -/
def decodeHeader (b : Batch) : Option BatchHeader :=
  match b.Header with
  | some (n :: _) => some { Seq := n, PrevHash := none, DataHash := none }
  | _ => none

/-- The sample collaborators: round-robin primaries over four replicas, the header as
its own hash, and every batch with a header well formed. -/
def env : Env where
  primaryIDView := fun v => v % 4
  primaryID := fun s => s.view % 4
  checkSig := checkSig
  checkBatch := fun b _ _ =>
    match b with
    | some { Header := none, Payloads := _ } => .error "no header"
    | _ => .ok ()
  makeXset := makeXset
  Hash := fun b => b.Header
  DecodeHeader := decodeHeader

/-- A record holding nothing. -/
def blank : ReplicaInfo :=
  { viewchange := none, signedViewchange := none, newview := none }

/-- A record holding the vote of replica `id` for view `v`. -/
def voted (id v : Nat) : ReplicaInfo :=
  { viewchange := some { View := v, Pset := [], Qset := [], Checkpoint := none },
    signedViewchange := some (vote id v), newview := none }

/-- The request in flight at a replica that has none: empty digest, empty proposal. -/
def idle : ReqInfo :=
  { subject := { Seq := some { View := 0, Seq := 0 }, Digest := none },
    preprep := some { Seq := none, Batch := none } }

/-- A replica in view 2, not yet active, holding no votes and no certificate. -/
def start : SBFT :=
  { view := 2, activeView := false, replicaState := [blank, blank, blank, blank],
    lastNewViewSent := none, cur := idle }

/-- The certificate for view 2 backed by the votes of replicas 0, 1 and 3, with the
null decision and the synthesized batch. -/
def nullCert : NewView :=
  { View := 2, Vset := [(0, some (vote 0 2)), (1, some (vote 1 2)), (3, some (vote 3 2))],
    Xset := none, Batch := some nullBatch }

/-- A vote for view `v` that reports the request with digest `[d]` under way at
sequence `n`. -/
def voteFor (v n d : Nat) : ViewChange :=
  { View := v, Pset := [{ Seq := some { View := v - 1, Seq := n }, Digest := some [d] }],
    Qset := [], Checkpoint := none }

/-- A record holding the vote `voteFor v n d` of replica `id`. -/
def votedFor (id v n d : Nat) : ReplicaInfo :=
  { viewchange := some (voteFor v n d),
    signedViewchange := some { Data := some [v, n, d], Signature := some [id] },
    newview := none }

/-- The request whose content the sample primary lacks: digest `[7]` at sequence 5. -/
def lostRequest : Subject :=
  { Seq := some { View := 1, Seq := 5 }, Digest := some [7] }

/-- The primary of view 2 holding three votes for view 2, one of which reports
`lostRequest`, while it has no request in flight itself. -/
def forfeiting : SBFT :=
  { view := 2, activeView := false,
    replicaState := [voted 0 2, votedFor 1 2 5 7, blank, voted 3 2],
    lastNewViewSent := none, cur := idle }

/-- The primary of view 2 holding three votes for view 2 that report no request. -/
def quorate : SBFT :=
  { view := 2, activeView := false,
    replicaState := [voted 0 2, voted 1 2, blank, voted 3 2],
    lastNewViewSent := none, cur := idle }

/-- The sample certificate with its decision altered to `lostRequest`. -/
def alteredCert : NewView :=
  { nullCert with Xset := some lostRequest }

/-- The certificate for view 5 (primary 1), backed by votes for view 5. -/
def laterCert : NewView :=
  { View := 5, Vset := [(0, some (vote 0 5)), (1, some (vote 1 5)), (2, some (vote 2 5))],
    Xset := none, Batch := some nullBatch }

/-- A replica active in view 5, holding `laterCert` in the record of replica 1. -/
def inViewFive : SBFT :=
  { view := 5, activeView := true,
    replicaState := [blank, { blank with newview := some laterCert }, blank, blank],
    lastNewViewSent := none, cur := idle }

/-- The sample replica after it accepted and recorded the sample certificate, before
activation. -/
def recorded : SBFT :=
  recordNewView env start nullCert

/-- A certificate for view 2 reinstating the request with header `[5, 7]` at sequence 5. -/
def reinstating : NewView :=
  { View := 2, Vset := [],
    Xset := some { Seq := some { View := 1, Seq := 5 }, Digest := some [5, 7] },
    Batch := some { Header := some [5, 7], Payloads := [some [1]] } }

/-- The primary of view 2 holding the votes of `forfeiting` and, in flight, the request
with digest `[7]` that they report. -/
def holding : SBFT :=
  { forfeiting with
    cur := { subject := lostRequest,
             preprep := some { Seq := some { View := 1, Seq := 5 },
                               Batch := some { Header := some [7], Payloads := [some [1]] } } } }

/-- The sample collaborators with a resolver that never reinstates: ready from three
votes on, it synthesizes `nullBatch`. -/
def nullEnv : Env :=
  { env with
    makeXset := fun vcs =>
      if vcs.length < 3 then (none, none, false) else (none, some nullBatch, true) }

/-- The certificate `nullCert` with the entries of its `Vset` in another order. -/
def shuffledCert : NewView :=
  { nullCert with Vset := [(3, some (vote 3 2)), (0, some (vote 0 2)), (1, some (vote 1 2))] }

/-- The primary of view 2 holding the votes of replicas 0, 1 and 3 for view 2 and, from
replica 2, a vote for the later view 3 that reports a request under way. -/
def mixed : SBFT :=
  { view := 2, activeView := false,
    replicaState := [voted 0 2, voted 1 2, votedFor 2 3 5 7, voted 3 2],
    lastNewViewSent := none, cur := idle }

/-- The certificate the primary `holding` issues: it reinstates the request with digest
`[7]`, which the votes place at sequence 5, and attaches the batch in flight, whose
header `[7]` declares sequence 7. -/
def reusedCert : NewView :=
  certificateOf holding (some lostRequest) (some { Header := some [7], Payloads := [some [1]] })

end Sample

/-! ## Lemmas on the vote checks -/

theorem checkVote_ok_iff (env : Env) (nv : NewView) (e : Nat × Option Signed) (vc : ViewChange) :
    checkVote env nv e.1 e.2 = .ok vc ↔
      (env.checkSig e.2 e.1 = .ok vc ∧ vc.View = nv.View ∧
        ∃ u, env.checkBatch vc.Checkpoint false true = .ok u) := by
  unfold checkVote
  cases hsig : env.checkSig e.2 e.1 with
  | error err => simp
  | ok vc0 =>
    by_cases hv : vc0.View = nv.View
    · cases hcb : env.checkBatch vc0.Checkpoint false true with
      | error err =>
        simp only [hv, ne_eq, not_true_eq_false, if_false, hcb]
        constructor
        · intro h; cases h
        · rintro ⟨h1, _, u, h3⟩
          cases h1
          rw [hcb] at h3
          cases h3
      | ok u =>
        simp only [hv, ne_eq, not_true_eq_false, if_false, hcb]
        constructor
        · intro h
          cases h
          exact ⟨rfl, hv, u, hcb⟩
        · rintro ⟨h1, _, _⟩
          cases h1
          rfl
    · simp only [ne_eq, hv, not_false_eq_true, if_true]
      constructor
      · intro h; cases h
      · rintro ⟨h1, h2, _⟩
        cases h1
        exact absurd h2 hv

theorem checkVote_authentic (env : Env) (nv : NewView) (e : Nat × Option Signed) :
    VoteAuthentic env nv e ↔ ∃ vc, checkVote env nv e.1 e.2 = .ok vc := by
  constructor
  · rintro ⟨vc, h⟩
    exact ⟨vc, (checkVote_ok_iff env nv e vc).2 h⟩
  · rintro ⟨vc, h⟩
    exact ⟨vc, (checkVote_ok_iff env nv e vc).1 h⟩

theorem checkVote_decode (env : Env) (nv : NewView) (e : Nat × Option Signed) (vc : ViewChange)
    (h : checkVote env nv e.1 e.2 = .ok vc) : decodeVote env e = some vc := by
  have h1 := ((checkVote_ok_iff env nv e vc).1 h).1
  simp [decodeVote, h1]

theorem checkVotes_ok_iff (env : Env) (nv : NewView) (l : List (Nat × Option Signed))
    (vcs : List ViewChange) :
    checkVotes env nv l = .ok vcs ↔
      ((∀ e ∈ l, VoteAuthentic env nv e) ∧ vcs = l.filterMap (decodeVote env)) := by
  induction l generalizing vcs with
  | nil =>
    simp only [checkVotes, List.not_mem_nil, false_implies, implies_true, List.filterMap_nil,
      true_and]
    constructor
    · intro h; cases h; rfl
    · intro h; rw [h]
  | cons e rest ih =>
    obtain ⟨vcsrc, svc⟩ := e
    unfold checkVotes
    cases hv : checkVote env nv vcsrc svc with
    | error err =>
      simp only [List.mem_cons, forall_eq_or_imp]
      constructor
      · intro h; cases h
      · rintro ⟨⟨ha, _⟩, _⟩
        obtain ⟨vc, hvc⟩ := (checkVote_authentic env nv (vcsrc, svc)).1 ha
        simp only at hvc
        rw [hv] at hvc
        cases hvc
    | ok vc =>
      have hauth : VoteAuthentic env nv (vcsrc, svc) :=
        (checkVote_authentic env nv (vcsrc, svc)).2 ⟨vc, hv⟩
      have hdec : decodeVote env (vcsrc, svc) = some vc := checkVote_decode env nv (vcsrc, svc) vc hv
      cases hr : checkVotes env nv rest with
      | error err =>
        simp only [List.mem_cons, forall_eq_or_imp]
        constructor
        · intro h; cases h
        · rintro ⟨⟨_, hb⟩, _⟩
          have := (ih (rest.filterMap (decodeVote env))).2 ⟨hb, rfl⟩
          rw [hr] at this
          cases this
      | ok vcs0 =>
        have h0 := (ih vcs0).1 hr
        simp only [List.mem_cons, forall_eq_or_imp, List.filterMap_cons, hdec]
        constructor
        · intro h
          cases h
          exact ⟨⟨hauth, h0.1⟩, by rw [h0.2]⟩
        · rintro ⟨_, h2⟩
          rw [h2, h0.2]

theorem checkNewViewSignatures_ok_iff (env : Env) (nv : NewView) (vcs : List ViewChange) :
    checkNewViewSignatures env nv = .ok vcs ↔
      ((∀ e ∈ nv.Vset, VoteAuthentic env nv e) ∧ vcs = decodedVotes env nv) :=
  checkVotes_ok_iff env nv nv.Vset vcs

/-! ## The forged source -/

/-- C1: a certificate whose sender is not the primary of the certificate's view leaves the
replica as it was (so `replicaState`, `view` and `activeView` are unchanged) and
produces no call at all (so no proposal), whatever the certificate holds. -/
theorem handleNewView_forged_source (env : Env) (s : SBFT) (nv : NewView) (src : Nat)
    (h : src ≠ env.primaryIDView nv.View) :
    handleNewView env s nv src = some (s, []) := by
  simp [handleNewView, validateNewView, h]

/-- C1 at the sample replica: the valid certificate for view 2, sent by replica 1. -/
theorem handleNewView_forged_source_witness :
    validateNewView Sample.env Sample.start Sample.nullCert 2 = Verdict.accepted ∧
      handleNewView Sample.env Sample.start Sample.nullCert 1 = some (Sample.start, []) :=
  ⟨by decide, handleNewView_forged_source Sample.env Sample.start Sample.nullCert 1 (by decide)⟩

/-! ## Acceptance -/

theorem isStale_false_iff (onv : Option NewView) (nv : NewView) :
    isStale onv nv = false ↔ (onv = none ∨ ∃ o, onv = some o ∧ o.View < nv.View) := by
  cases onv with
  | none => simp [isStale]
  | some o => simp [isStale]

theorem checkDigest_accepted_iff (env : Env) (nv : NewView) (b : Batch) (newBatch : Option Batch) :
    checkDigest env nv b newBatch = Verdict.accepted ↔
      (match nv.Xset with
        | none => ∃ nb, newBatch = some nb ∧ bytesEqual (env.Hash b) (env.Hash nb) = true
        | some x => bytesEqual (env.Hash b) x.Digest = true) := by
  unfold checkDigest
  cases nv.Xset with
  | none =>
    cases newBatch with
    | none => simp
    | some nb =>
      cases hb : bytesEqual (env.Hash b) (env.Hash nb) <;> simp [hb]
  | some x =>
    cases hb : bytesEqual (env.Hash b) x.Digest <;> simp [hb]

theorem checkContent_accepted_iff (env : Env) (nv : NewView) :
    checkContent env nv = Verdict.accepted ↔ ContentValid env nv := by
  unfold checkContent ContentValid
  cases hsig : checkNewViewSignatures env nv with
  | error e =>
    constructor
    · intro h; cases h
    · rintro ⟨hall, _⟩
      have := (checkNewViewSignatures_ok_iff env nv (decodedVotes env nv)).2 ⟨hall, rfl⟩
      rw [hsig] at this
      cases this
  | ok vcs =>
    obtain ⟨hall, hvcs⟩ := (checkNewViewSignatures_ok_iff env nv vcs).1 hsig
    subst hvcs
    cases hb : nv.Batch with
    | none =>
      constructor
      · intro h; cases h
      · rintro ⟨_, b, hb2, _⟩
        cases hb2
    | some b =>
      have hd := checkDigest_accepted_iff env nv b (env.makeXset (decodedVotes env nv)).2.1
      simp only [Option.some.injEq, exists_eq_left', hall, true_and]
      unfold DecisionRederived DigestConsistent
      by_cases hok : (env.makeXset (decodedVotes env nv)).2.2 = true
      · by_cases hxs : nv.Xset = (env.makeXset (decodedVotes env nv)).1
        · have hg : (!(env.makeXset (decodedVotes env nv)).2.2 ||
              !decide (nv.Xset = (env.makeXset (decodedVotes env nv)).1)) = false := by
            simp [hok, hxs]
          simp only [hg, Bool.false_eq_true, if_false]
          cases hcd : checkDigest env nv b (env.makeXset (decodedVotes env nv)).2.1 with
          | accepted =>
            have hd1 := hd.1 hcd
            cases hcb : env.checkBatch (some b) true false with
            | error err =>
              simp only
              constructor
              · intro h; cases h
              · rintro ⟨_, _, _, u, hu⟩
                cases hu
            | ok u =>
              simp only [true_iff]
              exact ⟨hall, ⟨hok, hxs⟩, hd1, u, trivial⟩
          | forged =>
            simp only
            constructor
            · intro h; cases h
            · rintro ⟨_, _, hdc, _⟩
              have := hd.2 hdc
              rw [hcd] at this
              cases this
          | stale =>
            simp only
            constructor
            · intro h; cases h
            · rintro ⟨_, _, hdc, _⟩
              have := hd.2 hdc
              rw [hcd] at this
              cases this
          | rejected r =>
            simp only
            constructor
            · intro h; cases h
            · rintro ⟨_, _, hdc, _⟩
              have := hd.2 hdc
              rw [hcd] at this
              cases this
          | fault =>
            simp only
            constructor
            · intro h; cases h
            · rintro ⟨_, _, hdc, _⟩
              have := hd.2 hdc
              rw [hcd] at this
              cases this
        · have hg : (!(env.makeXset (decodedVotes env nv)).2.2 ||
              !decide (nv.Xset = (env.makeXset (decodedVotes env nv)).1)) = true := by
            simp [hxs]
          simp only [hg, if_true]
          constructor
          · intro h; cases h
          · rintro ⟨_, ⟨_, h2⟩, _⟩
            exact absurd h2 hxs
      · have hg : (!(env.makeXset (decodedVotes env nv)).2.2 ||
            !decide (nv.Xset = (env.makeXset (decodedVotes env nv)).1)) = true := by
          simp [hok]
        simp only [hg, if_true]
        constructor
        · intro h; cases h
        · rintro ⟨_, ⟨h1, _⟩, _⟩
          exact absurd h1 hok

theorem validateNewView_accepted_iff (env : Env) (s : SBFT) (nv : NewView) (src : Nat) :
    validateNewView env s nv src = Verdict.accepted ↔ AcceptanceConditions env s nv src := by
  unfold validateNewView AcceptanceConditions Fresh
  by_cases hsrc : src = env.primaryIDView nv.View
  · simp only [hsrc, ne_eq, not_true_eq_false, if_false, true_and]
    cases hr : s.replicaState[env.primaryIDView nv.View]? with
    | none => simp
    | some r =>
      simp only [Option.some.injEq, exists_eq_left']
      cases hst : isStale r.newview nv with
      | true =>
        have hn : ¬ (r.newview = none ∨ ∃ o, r.newview = some o ∧ o.View < nv.View) := by
          intro h
          have := (isStale_false_iff r.newview nv).2 h
          rw [hst] at this
          cases this
        simp only [if_true]
        constructor
        · intro h; cases h
        · rintro ⟨h, _⟩
          exact absurd h hn
      | false =>
        have hn := (isStale_false_iff r.newview nv).1 hst
        simp only [Bool.false_eq_true, if_false]
        rw [checkContent_accepted_iff]
        constructor
        · intro h; exact ⟨hn, h⟩
        · intro h; exact h.2
  · simp [hsrc]

theorem processNewView_state (env : Env) (s s' : SBFT) (tr : List Event)
    (h : processNewView env s = some (s', tr)) :
    s' = s ∨ (s.activeView = false ∧ s' = { s with activeView := true }) := by
  unfold processNewView at h
  cases ha : s.activeView with
  | true =>
    simp only [ha, if_true, Option.some.injEq, Prod.mk.injEq] at h
    exact Or.inl h.1.symm
  | false =>
    simp only [ha, Bool.false_eq_true, if_false] at h
    cases hr : s.replicaState[env.primaryIDView s.view]? with
    | none => simp [hr] at h
    | some r =>
      simp only [hr] at h
      cases hn : r.newview with
      | none =>
        simp only [hn, Option.some.injEq, Prod.mk.injEq] at h
        exact Or.inl h.1.symm
      | some nv =>
        simp only [hn] at h
        by_cases hv : nv.View = s.view
        · simp only [hv, ne_eq, not_true_eq_false, if_false] at h
          cases hb : nv.Batch with
          | none => simp [hb] at h
          | some b =>
            simp only [hb] at h
            cases hh : env.DecodeHeader b with
            | none => simp [hh] at h
            | some hd =>
              simp only [hh, Option.some.injEq, Prod.mk.injEq] at h
              exact Or.inr ⟨rfl, h.1.symm⟩
        · simp only [ne_eq, hv, not_false_eq_true, if_true, Option.some.injEq,
            Prod.mk.injEq] at h
          exact Or.inl h.1.symm

theorem processNewView_frame (env : Env) (s s' : SBFT) (tr : List Event)
    (h : processNewView env s = some (s', tr)) :
    s'.replicaState = s.replicaState ∧ s'.view = s.view ∧
      s'.lastNewViewSent = s.lastNewViewSent ∧ s'.cur = s.cur := by
  rcases processNewView_state env s s' tr h with h1 | ⟨_, h1⟩ <;> subst h1 <;> simp

theorem advanceView_replicaState (s : SBFT) (nv : NewView) :
    (advanceView s nv).replicaState = s.replicaState := by
  unfold advanceView
  split <;> rfl

theorem storedNewView_recordNewView (env : Env) (s : SBFT) (nv : NewView) (r : ReplicaInfo)
    (h : s.replicaState[env.primaryIDView nv.View]? = some r) :
    storedNewView (recordNewView env s nv) (env.primaryIDView nv.View) = some nv := by
  simp [storedNewView, recordNewView, List.getElem?_modify_eq, h]

theorem handleNewView_of_accepted (env : Env) (s : SBFT) (nv : NewView) (src : Nat)
    (h : validateNewView env s nv src = Verdict.accepted) :
    handleNewView env s nv src = processNewView env (advanceView (recordNewView env s nv) nv) := by
  simp [handleNewView, h]

theorem handleNewView_of_not_accepted (env : Env) (s s' : SBFT) (nv : NewView) (src : Nat)
    (tr : List Event) (h : validateNewView env s nv src ≠ Verdict.accepted)
    (hr : handleNewView env s nv src = some (s', tr)) : s' = s := by
  unfold handleNewView at hr
  cases hv : validateNewView env s nv src with
  | accepted => exact absurd hv h
  | forged => simp [hv] at hr; exact hr.1.symm
  | stale => simp [hv] at hr; exact hr.1.symm
  | rejected r => simp [hv] at hr; exact hr.1.symm
  | fault => simp [hv] at hr

/-- C2: `handleNewView` reaches line 142, where it stores `nv` in the record of
`primaryIDView(nv.View)`, exactly when the sender is that primary, the certificate
stored there is absent or for a strictly smaller view, every entry of `Vset`
is authentic, a batch is attached, the resolver over the decoded votes is ready
and returns `nv.Xset`, the hash of the batch is that of the synthesized batch
(nil decision) or the digest of the decision, and `checkBatch` with data
checking succeeds. When it does, the record holds `nv` afterwards and the batch
of `nv` matches its decision; when it does not, `replicaState` is unchanged. -/
theorem handleNewView_records_iff (env : Env) (s : SBFT) (nv : NewView) (src : Nat) :
    (validateNewView env s nv src = Verdict.accepted ↔ AcceptanceConditions env s nv src) ∧
    (validateNewView env s nv src = Verdict.accepted →
      storedNewView (recordNewView env s nv) (env.primaryIDView nv.View) = some nv ∧
      handleNewView env s nv src =
        processNewView env (advanceView (recordNewView env s nv) nv) ∧
      (∀ s' tr, handleNewView env s nv src = some (s', tr) →
        storedNewView s' (env.primaryIDView nv.View) = some nv) ∧
      ∃ b, nv.Batch = some b ∧ DigestConsistent env nv b) ∧
    (validateNewView env s nv src ≠ Verdict.accepted →
      ∀ s' tr, handleNewView env s nv src = some (s', tr) →
        s'.replicaState = s.replicaState) := by
  refine ⟨validateNewView_accepted_iff env s nv src, ?_, ?_⟩
  · intro hacc
    obtain ⟨_, ⟨r, hr, _⟩, _, b, hb, _, hdig, _⟩ :=
      (validateNewView_accepted_iff env s nv src).1 hacc
    have hst := storedNewView_recordNewView env s nv r hr
    have hh := handleNewView_of_accepted env s nv src hacc
    refine ⟨hst, hh, ?_, b, hb, hdig⟩
    intro s' tr hres
    rw [hh] at hres
    have hf := (processNewView_frame env _ s' tr hres).1
    rw [advanceView_replicaState] at hf
    unfold storedNewView at hst ⊢
    rw [hf]
    exact hst
  · intro hn s' tr hres
    rw [handleNewView_of_not_accepted env s s' nv src tr hn hres]

/-- The acceptance conditions can be met: the sample certificate meets them at the sample
replica, is recorded, and activates view 2. -/
theorem sample_nullCert_accepted :
    AcceptanceConditions Sample.env Sample.start Sample.nullCert 2 ∧
      (handleNewView Sample.env Sample.start Sample.nullCert 2).map
          (fun o => (storedNewView o.1 2, o.1.activeView, proposals o.2)) =
        some (some Sample.nullCert, true,
          [{ Seq := some { View := 2, Seq := 0 }, Batch := some Sample.nullBatch }]) :=
  ⟨(handleNewView_records_iff Sample.env Sample.start Sample.nullCert 2).1.1 (by decide), by decide⟩

/-! ## The issuer -/

theorem maybeSendNewView_cases (env : Env) (s s' : SBFT) (tr : List Event)
    (h : maybeSendNewView env s = some (s', tr)) :
    (s' = s ∧ tr = []) ∨
      ∃ nv, nv.View = s.view ∧ alreadySent s = false ∧
        s' = { s with lastNewViewSent := some nv } ∧ tr = [Event.broadcast nv] := by
  unfold maybeSendNewView at h
  cases hs : alreadySent s with
  | true =>
    simp only [hs, if_true, Option.some.injEq, Prod.mk.injEq] at h
    exact Or.inl ⟨h.1.symm, h.2.symm⟩
  | false =>
    simp only [hs, Bool.false_eq_true, if_false] at h
    cases hok : (env.makeXset (collectVotes s.view 0 s.replicaState).2).2.2 with
    | false =>
      simp only [hok, Bool.not_false, if_true, Option.some.injEq, Prod.mk.injEq] at h
      exact Or.inl ⟨h.1.symm, h.2.symm⟩
    | true =>
      simp only [hok, Bool.not_true, Bool.false_eq_true, if_false] at h
      right
      cases hnb : (env.makeXset (collectVotes s.view 0 s.replicaState).2).2.1 with
      | some nb =>
        simp only [hnb, sendNewView, Option.some.injEq, Prod.mk.injEq] at h
        exact ⟨_, rfl, rfl, h.1.symm, h.2.symm⟩
      | none =>
        simp only [hnb] at h
        cases hx : (env.makeXset (collectVotes s.view 0 s.replicaState).2).1 with
        | none => simp [hx] at h
        | some x =>
          simp only [hx] at h
          by_cases hd : s.cur.subject.Digest = x.Digest
          · simp only [hd, if_true] at h
            cases hp : s.cur.preprep with
            | none => simp [hp] at h
            | some pp =>
              simp only [hp, sendNewView, Option.some.injEq, Prod.mk.injEq] at h
              exact ⟨_, rfl, rfl, h.1.symm, h.2.symm⟩
          · simp only [hd, if_false] at h
            cases hq : x.Seq with
            | none => simp [hq] at h
            | some q =>
              simp only [hq, sendNewView, Option.some.injEq, Prod.mk.injEq] at h
              exact ⟨_, rfl, rfl, h.1.symm, h.2.symm⟩

theorem maybeSendNewView_of_alreadySent (env : Env) (s : SBFT) (h : alreadySent s = true) :
    maybeSendNewView env s = some (s, []) := by
  simp [maybeSendNewView, h]

theorem alreadySent_of_sent (s : SBFT) (nv : NewView) (h : nv.View = s.view) :
    alreadySent { s with lastNewViewSent := some nv } = true := by
  simp [alreadySent, h]

theorem runIssuer_of_alreadySent (env : Env) (steps : List IssuerStep) (s : SBFT)
    (h : alreadySent s = true) :
    (runIssuer env s steps).2 = [] ∧ alreadySent (runIssuer env s steps).1 = true ∧
      (runIssuer env s steps).1.lastNewViewSent = s.lastNewViewSent ∧
      (runIssuer env s steps).1.view = s.view := by
  induction steps generalizing s with
  | nil => exact ⟨rfl, h, rfl, rfl⟩
  | cons st rest ih =>
    cases st with
    | issue =>
      simp only [runIssuer, maybeSendNewView_of_alreadySent env s h, List.nil_append]
      exact ih s h
    | votes rs =>
      simp only [runIssuer]
      have h2 : alreadySent { s with replicaState := rs } = true := by
        simpa [alreadySent] using h
      exact ih _ h2

/-- C3 as stated fails: at the sample primary, which lacks the request the resolver
reinstates, `maybeSendNewView` broadcasts a `NewView` and records it as
`lastNewViewSent`. -/
theorem forfeiture_broadcasts_counterexample :
    Forfeits Sample.env Sample.forfeiting Sample.lostRequest ∧
      maybeSendNewView Sample.env Sample.forfeiting =
        some ({ Sample.forfeiting with lastNewViewSent := some (forfeitMessage Sample.forfeiting) },
          [Event.broadcast (forfeitMessage Sample.forfeiting)]) ∧
      (some (forfeitMessage Sample.forfeiting) ≠ Sample.forfeiting.lastNewViewSent) :=
  ⟨⟨by decide, by decide, by decide, by decide⟩, by decide, by decide⟩

/-- C3, amended: in the forfeiture case, when no `NewView` was sent for the current view
yet and the decision names its sequence, `maybeSendNewView` broadcasts exactly one
`NewView`, for the current view, carrying the votes recorded for that view but
neither the decision (`Xset` is nil) nor a batch, and records it as
`lastNewViewSent`. -/
theorem maybeSendNewView_forfeit (env : Env) (s : SBFT) (x : Subject)
    (hf : Forfeits env s x) (hsent : alreadySent s = false) (hseq : x.Seq ≠ none) :
    maybeSendNewView env s =
      some ({ s with lastNewViewSent := some (forfeitMessage s) },
        [Event.broadcast (forfeitMessage s)]) := by
  obtain ⟨hok, hnb, hx, hd⟩ := hf
  have hd2 : ¬ s.cur.subject.Digest = x.Digest := fun h => hd h.symm
  cases hq : x.Seq with
  | none => exact absurd hq hseq
  | some q =>
    simp [maybeSendNewView, hsent, hok, hnb, hx, hd2, hq, sendNewView, forfeitMessage]

/-- C3, amended, at the sample primary. -/
theorem maybeSendNewView_forfeit_witness :
    maybeSendNewView Sample.env Sample.forfeiting =
      some ({ Sample.forfeiting with lastNewViewSent := some (forfeitMessage Sample.forfeiting) },
        [Event.broadcast (forfeitMessage Sample.forfeiting)]) :=
  maybeSendNewView_forfeit Sample.env Sample.forfeiting Sample.lostRequest
    ⟨by decide, by decide, by decide, by decide⟩ (by decide) (by decide)

/-- C4: in any sequence of `maybeSendNewView` calls and changes of `replicaState` (which
leave `view` alone), at most one `NewView` is broadcast; and once a call has
broadcast, the steps that follow produce no call at all and keep
`lastNewViewSent`, and a further `maybeSendNewView` returns the state as it is. -/
theorem maybeSendNewView_single_issuance (env : Env) (s : SBFT) (steps : List IssuerStep) :
    broadcastCount (runIssuer env s steps).2 ≤ 1 ∧
    (runIssuer env s steps).1.view = s.view ∧
    (∀ s1 tr, maybeSendNewView env s = some (s1, tr) → 0 < broadcastCount tr →
      (runIssuer env s1 steps).2 = [] ∧
      (runIssuer env s1 steps).1.lastNewViewSent = s1.lastNewViewSent ∧
      maybeSendNewView env (runIssuer env s1 steps).1 = some ((runIssuer env s1 steps).1, [])) := by
  refine ⟨?_, ?_, ?_⟩
  · induction steps generalizing s with
    | nil => simp [runIssuer, broadcastCount]
    | cons st rest ih =>
      cases st with
      | votes rs => simpa [runIssuer] using ih _
      | issue =>
        simp only [runIssuer]
        cases hm : maybeSendNewView env s with
        | none => simp [broadcastCount]
        | some o =>
          obtain ⟨s1, tr⟩ := o
          rcases maybeSendNewView_cases env s s1 tr hm with ⟨h1, h2⟩ | ⟨nv, hv, _, h1, h2⟩
          · subst h1 h2
            simpa using ih _
          · subst h1 h2
            have := (runIssuer_of_alreadySent env rest _ (alreadySent_of_sent s nv hv)).1
            simp [this, broadcastCount]
  · induction steps generalizing s with
    | nil => rfl
    | cons st rest ih =>
      cases st with
      | votes rs => simpa [runIssuer] using ih _
      | issue =>
        simp only [runIssuer]
        cases hm : maybeSendNewView env s with
        | none => rfl
        | some o =>
          obtain ⟨s1, tr⟩ := o
          rcases maybeSendNewView_cases env s s1 tr hm with ⟨h1, _⟩ | ⟨nv, _, _, h1, _⟩
          · subst h1
            simpa using ih _
          · subst h1
            simpa using ih _
  · intro s1 tr hm hpos
    rcases maybeSendNewView_cases env s s1 tr hm with ⟨_, h2⟩ | ⟨nv, hv, _, h1, _⟩
    · subst h2
      simp [broadcastCount] at hpos
    · subst h1
      have hr := runIssuer_of_alreadySent env steps _ (alreadySent_of_sent s nv hv)
      exact ⟨hr.1, hr.2.2.1, maybeSendNewView_of_alreadySent env _ hr.2.1⟩

/-- C4 at the sample primary: two calls with a vote arriving in between broadcast once. -/
theorem maybeSendNewView_single_issuance_sample :
    broadcastCount (runIssuer Sample.env Sample.quorate
      [IssuerStep.issue, IssuerStep.votes
        [Sample.voted 0 2, Sample.voted 1 2, Sample.voted 2 2, Sample.voted 3 2],
        IssuerStep.issue]).2 = 1 :=
  Nat.le_antisymm (maybeSendNewView_single_issuance Sample.env Sample.quorate _).1 (by decide)

/-! ## Rejection -/

theorem contentFails_not_valid (env : Env) (nv : NewView) (h : ContentFails env nv) :
    ¬ ContentValid env nv := by
  rintro ⟨hall, b, hb, hdr, hdc, u, hu⟩
  rcases h with ⟨e, he, hne⟩ | hnb | hnd | ⟨b1, hb1, hnc⟩ | ⟨b1, err, hb1, herr⟩
  · exact hne (hall e he)
  · rw [hb] at hnb
    cases hnb
  · exact hnd hdr
  · rw [hb] at hb1
    cases hb1
    exact hnc hdc
  · rw [hb] at hb1
    cases hb1
    rw [hu] at herr
    cases herr

theorem checkDigest_cases (env : Env) (nv : NewView) (b : Batch) (newBatch : Option Batch)
    (h : nv.Xset = none → ∃ nb, newBatch = some nb) :
    checkDigest env nv b newBatch = Verdict.accepted ∨
      ∃ r, checkDigest env nv b newBatch = Verdict.rejected r := by
  unfold checkDigest
  cases hx : nv.Xset with
  | none =>
    obtain ⟨nb, hnb⟩ := h hx
    subst hnb
    cases hb : bytesEqual (env.Hash b) (env.Hash nb)
    · exact Or.inr ⟨Reject.nullBatchMismatch, by simp [hb]⟩
    · exact Or.inl (by simp [hb])
  | some x =>
    cases hb : bytesEqual (env.Hash b) x.Digest
    · exact Or.inr ⟨Reject.digestMismatch, by simp [hb]⟩
    · exact Or.inl (by simp [hb])

theorem checkContent_cases (env : Env) (nv : NewView) (hres : ResolverSynthesizes env) :
    checkContent env nv = Verdict.accepted ∨ ∃ r, checkContent env nv = Verdict.rejected r := by
  unfold checkContent
  cases hsig : checkNewViewSignatures env nv with
  | error e => exact Or.inr ⟨_, rfl⟩
  | ok vcs =>
    cases hb : nv.Batch with
    | none => exact Or.inr ⟨_, rfl⟩
    | some b =>
      simp only
      by_cases hg : (!(env.makeXset vcs).2.2 || !decide (nv.Xset = (env.makeXset vcs).1)) = true
      · simp only [hg, if_true]
        exact Or.inr ⟨_, rfl⟩
      · simp only [hg, if_false]
        have hok : (env.makeXset vcs).2.2 = true := by
          cases h : (env.makeXset vcs).2.2 <;> simp_all
        have hxs : nv.Xset = (env.makeXset vcs).1 := by
          by_contra hne
          simp [hne] at hg
        have hnil : nv.Xset = none → ∃ nb, (env.makeXset vcs).2.1 = some nb := by
          intro h0
          exact hres vcs hok (by rw [← hxs]; exact h0)
        rcases checkDigest_cases env nv b (env.makeXset vcs).2.1 hnil with hd | ⟨r, hd⟩
        · rw [hd]
          simp only
          cases hcb : env.checkBatch (some b) true false with
          | error err => exact Or.inr ⟨_, rfl⟩
          | ok u => exact Or.inl rfl
        · rw [hd]
          exact Or.inr ⟨_, rfl⟩

theorem validateNewView_of_fresh (env : Env) (s : SBFT) (nv : NewView) (h : Fresh env s nv) :
    validateNewView env s nv (env.primaryIDView nv.View) = checkContent env nv := by
  obtain ⟨r, hr, hn⟩ := h
  have hst := (isStale_false_iff r.newview nv).2 hn
  simp [validateNewView, hr, hst]

/-- C5: a certificate sent by the primary of its view and not discarded as stale that
fails vote authenticity, batch presence, decision re-derivation, digest consistency
or batch validation is rejected: the replica is left as it was (the certificate is
not recorded, `processNewView` has had no effect) and the only call made is one
`sendViewChange`. The resolver is taken to return a synthesized batch whenever it
is ready with a null decision. -/
theorem handleNewView_rejects_invalid (env : Env) (s : SBFT) (nv : NewView)
    (hres : ResolverSynthesizes env) (hfresh : Fresh env s nv) (hbad : ContentFails env nv) :
    (∃ r, validateNewView env s nv (env.primaryIDView nv.View) = Verdict.rejected r) ∧
      handleNewView env s nv (env.primaryIDView nv.View) = some (s, [Event.sendViewChange]) := by
  have hv := validateNewView_of_fresh env s nv hfresh
  have hnv : checkContent env nv ≠ Verdict.accepted := fun h =>
    contentFails_not_valid env nv hbad ((checkContent_accepted_iff env nv).1 h)
  rcases checkContent_cases env nv hres with hc | ⟨r, hc⟩
  · exact absurd hc hnv
  · refine ⟨⟨r, by rw [hv, hc]⟩, ?_⟩
    simp [handleNewView, hv, hc]

theorem Sample.resolverSynthesizes : ResolverSynthesizes Sample.env := by
  intro vcs hok hx
  show ∃ nb, (Sample.makeXset vcs).2.1 = some nb
  have hok2 : (Sample.makeXset vcs).2.2 = true := hok
  have hx2 : (Sample.makeXset vcs).1 = none := hx
  unfold Sample.makeXset at hok2 hx2 ⊢
  by_cases hl : vcs.length < 3
  · simp [hl] at hok2
  · simp only [hl, if_false] at hx2 ⊢
    cases hp : vcs.flatMap (fun vc => vc.Pset) with
    | nil => exact ⟨Sample.nullBatch, rfl⟩
    | cons x rest =>
      rw [hp] at hx2
      cases hx2

/-- C5 at the sample replica: the sample certificate with an altered decision. -/
theorem handleNewView_rejects_invalid_witness :
    validateNewView Sample.env Sample.start Sample.alteredCert 2 =
        Verdict.rejected Reject.xsetIncorrect ∧
      handleNewView Sample.env Sample.start Sample.alteredCert 2 =
        some (Sample.start, [Event.sendViewChange]) :=
  ⟨by decide,
    (handleNewView_rejects_invalid Sample.env Sample.start Sample.alteredCert
      Sample.resolverSynthesizes ⟨Sample.blank, by decide, Or.inl rfl⟩
      (Or.inr (Or.inr (Or.inl (by
        unfold DecisionRederived
        decide))))).2⟩

/-! ## Freshness and re-delivery -/

theorem handleNewView_of_stale (env : Env) (s : SBFT) (nv onv : NewView)
    (hst : storedNewView s (env.primaryIDView nv.View) = some onv) (hge : onv.View ≥ nv.View) :
    validateNewView env s nv (env.primaryIDView nv.View) = Verdict.stale ∧
      handleNewView env s nv (env.primaryIDView nv.View) = some (s, []) := by
  unfold storedNewView at hst
  cases hr : s.replicaState[env.primaryIDView nv.View]? with
  | none => simp [hr] at hst
  | some r =>
    simp only [hr] at hst
    have hs : isStale r.newview nv = true := by simp [isStale, hst, hge]
    have hv : validateNewView env s nv (env.primaryIDView nv.View) = Verdict.stale := by
      simp [validateNewView, hr, hs]
    exact ⟨hv, by simp [handleNewView, hv]⟩

/-- C6 as stated fails: a replica active in view 5 holds the certificate for view 5 in the
record of replica 1, yet a certificate for view 2 from replica 2 is not discarded:
a valid one is recorded (`replicaState` changes), one without a batch makes the
replica call `sendViewChange`. -/
theorem freshness_other_record_counterexample :
    storedNewView Sample.inViewFive 1 = some Sample.laterCert ∧
      Sample.laterCert.View ≥ Sample.nullCert.View ∧
      Sample.env.primaryIDView Sample.nullCert.View = 2 ∧
      (handleNewView Sample.env Sample.inViewFive Sample.nullCert 2).map
          (fun o => decide (o.1.replicaState = Sample.inViewFive.replicaState)) = some false ∧
      handleNewView Sample.env Sample.inViewFive { Sample.nullCert with Batch := none } 2 =
        some (Sample.inViewFive, [Event.sendViewChange]) := by
  decide

/-- C6, amended: when the record of `primaryIDView(nv.View)` holds a certificate for a
view greater than or equal to `nv.View`, `handleNewView(nv, primaryIDView(nv.View))`
discards `nv`: the replica is left as it was and no call is made (no proposal,
no `sendViewChange`). -/
theorem handleNewView_discards_stale (env : Env) (s : SBFT) (nv onv : NewView)
    (hst : storedNewView s (env.primaryIDView nv.View) = some onv) (hge : onv.View ≥ nv.View) :
    handleNewView env s nv (env.primaryIDView nv.View) = some (s, []) :=
  (handleNewView_of_stale env s nv onv hst hge).2

/-- C6, amended, at the sample replica in view 5: an older certificate of replica 1. -/
theorem handleNewView_discards_stale_witness :
    handleNewView Sample.env Sample.inViewFive { Sample.nullCert with View := 1 } 1 =
      some (Sample.inViewFive, []) :=
  handleNewView_discards_stale Sample.env Sample.inViewFive { Sample.nullCert with View := 1 }
    Sample.laterCert (by decide) (by decide)

/-- C7: when `handleNewView(nv, src)` accepts and records `nv`, delivering `nv` from `src`
again to the resulting state leaves that state as it is and makes no call: no
proposal is fed to `handleCheckedPreprepare` and no vote is filed. -/
theorem handleNewView_redelivery (env : Env) (s s' : SBFT) (nv : NewView) (src : Nat)
    (tr : List Event) (hacc : validateNewView env s nv src = Verdict.accepted)
    (hres : handleNewView env s nv src = some (s', tr)) :
    handleNewView env s' nv src = some (s', []) := by
  obtain ⟨hsrc, ⟨r, hr, _⟩, _⟩ := (validateNewView_accepted_iff env s nv src).1 hacc
  rw [handleNewView_of_accepted env s nv src hacc] at hres
  have hf := (processNewView_frame env _ s' tr hres).1
  rw [advanceView_replicaState] at hf
  have hst := storedNewView_recordNewView env s nv r hr
  have hst2 : storedNewView s' (env.primaryIDView nv.View) = some nv := by
    unfold storedNewView at hst ⊢
    rw [hf]
    exact hst
  rw [hsrc]
  exact (handleNewView_of_stale env s' nv nv hst2 (Nat.le_refl _)).2

/-- C7 at the sample replica: the sample certificate delivered twice. -/
theorem handleNewView_redelivery_witness :
    ∃ s' tr, handleNewView Sample.env Sample.start Sample.nullCert 2 = some (s', tr) ∧
      proposals tr ≠ [] ∧ handleNewView Sample.env s' Sample.nullCert 2 = some (s', []) :=
  ⟨_, _, rfl, by decide,
    handleNewView_redelivery Sample.env Sample.start _ Sample.nullCert 2 _ (by decide) rfl⟩

/-! ## View activation -/

theorem processNewView_fires (env : Env) (s : SBFT) (nv : NewView) (b : Batch) (h : BatchHeader)
    (hact : Activates env s nv) (hb : nv.Batch = some b) (hh : env.DecodeHeader b = some h) :
    processNewView env s =
      some ({ s with activeView := true },
        activationTrace (env.primaryID { s with activeView := true })
          (proposalFor b h s.view)) := by
  obtain ⟨ha, hst, hv⟩ := hact
  unfold storedNewView at hst
  cases hr : s.replicaState[env.primaryIDView s.view]? with
  | none => simp [hr] at hst
  | some r =>
    simp only [hr] at hst
    simp [processNewView, ha, hr, hst, hv, hb, hh, activationTrace, proposalFor]

theorem processNewView_idle (env : Env) (s : SBFT)
    (hidx : env.primaryIDView s.view < s.replicaState.length)
    (hno : ¬ ∃ nv, Activates env s nv) : processNewView env s = some (s, []) := by
  unfold processNewView
  cases ha : s.activeView with
  | true => simp
  | false =>
    simp only [Bool.false_eq_true, if_false]
    have hget : s.replicaState[env.primaryIDView s.view]? =
        some (s.replicaState[env.primaryIDView s.view]) := List.getElem?_eq_getElem hidx
    rw [hget]
    simp only
    cases hn : (s.replicaState[env.primaryIDView s.view]).newview with
    | none => rfl
    | some nv =>
      simp only
      by_cases hv : nv.View = s.view
      · exfalso
        apply hno
        refine ⟨nv, ha, ?_, hv⟩
        simp [storedNewView, hget, hn]
      · simp [hv]

/-- C8: for a replica whose record of the current primary exists and whose stored
certificates for the current view carry a batch with a decodable header,
`processNewView` makes the view active, discards backlog and emits a proposal
exactly when the view is not active and that record holds a certificate for
exactly the current view; in every other state it returns the state as it is and
makes no call. It never changes `view` and never makes an active view inactive. -/
theorem processNewView_activation_guard (env : Env) (s : SBFT)
    (hidx : env.primaryIDView s.view < s.replicaState.length)
    (hdec : ∀ nv, storedNewView s (env.primaryIDView s.view) = some nv → nv.View = s.view →
      ∃ b h, nv.Batch = some b ∧ env.DecodeHeader b = some h) :
    ((∃ s' tr, processNewView env s = some (s', tr) ∧ s.activeView = false ∧
          s'.activeView = true ∧ (∃ id, Event.discardBacklog id ∈ tr) ∧ proposals tr ≠ []) ↔
        ∃ nv, Activates env s nv) ∧
      ((¬ ∃ nv, Activates env s nv) → processNewView env s = some (s, [])) ∧
      ∃ s' tr, processNewView env s = some (s', tr) ∧ s'.view = s.view ∧
        s'.replicaState = s.replicaState ∧ (s.activeView = true → s'.activeView = true) := by
  by_cases hact : ∃ nv, Activates env s nv
  · obtain ⟨nv, hnv⟩ := hact
    obtain ⟨b, h, hb, hh⟩ := hdec nv hnv.2.1 hnv.2.2
    have hf := processNewView_fires env s nv b h hnv hb hh
    refine ⟨⟨fun _ => ⟨nv, hnv⟩, fun _ => ⟨_, _, hf, hnv.1, rfl,
      ⟨env.primaryID { s with activeView := true }, ?_⟩, ?_⟩⟩, ?_, ?_⟩
    · exact List.mem_cons_self _ _
    · simp [activationTrace, proposals]
    · intro hno
      exact absurd ⟨nv, hnv⟩ hno
    · exact ⟨_, _, hf, rfl, rfl, fun _ => rfl⟩
  · have hi := processNewView_idle env s hidx hact
    refine ⟨⟨?_, fun h => absurd h hact⟩, fun _ => hi, ⟨s, [], hi, rfl, rfl, fun h => h⟩⟩
    rintro ⟨s', tr, hres, _, _, _, hp⟩
    rw [hi] at hres
    simp only [Option.some.injEq, Prod.mk.injEq] at hres
    rw [← hres.2] at hp
    exact absurd rfl hp

/-- C8 at the sample replica holding the sample certificate: activation fires. -/
theorem processNewView_activation_guard_witness :
    (∃ nv, Activates Sample.env Sample.recorded nv) ∧
      ∃ s' tr, processNewView Sample.env Sample.recorded = some (s', tr) ∧
        s'.view = Sample.recorded.view ∧ s'.replicaState = Sample.recorded.replicaState ∧
        (Sample.recorded.activeView = true → s'.activeView = true) :=
  ⟨⟨Sample.nullCert, by decide, by decide, by decide⟩,
    (processNewView_activation_guard Sample.env Sample.recorded (by decide) (by
      intro nv h _
      have h2 : storedNewView Sample.recorded 2 = some Sample.nullCert := by decide
      have h3 : storedNewView Sample.recorded 2 = some nv := h
      rw [h2] at h3
      cases h3
      exact ⟨Sample.nullBatch, _, rfl, rfl⟩)).2.2⟩

/-- C9 as stated fails: the certificate the sample primary issues reinstates the request
with digest `[7]` at sequence 5 and is accepted by the sample replica, yet the
proposal emitted on activation carries sequence 7, the sequence declared in the
header of the attached batch. -/
theorem proposal_sequence_counterexample :
    maybeSendNewView Sample.env Sample.holding = issued Sample.holding Sample.reusedCert ∧
      Sample.reusedCert.Xset =
        some { Seq := some { View := 1, Seq := 5 }, Digest := some [7] } ∧
      validateNewView Sample.env Sample.start Sample.reusedCert 2 = Verdict.accepted ∧
      (processNewView Sample.env
          (advanceView (recordNewView Sample.env Sample.start Sample.reusedCert)
            Sample.reusedCert)).map (fun o => proposals o.2) =
        some [{ Seq := some { Seq := 7, View := 2 }, Batch := Sample.reusedCert.Batch }] ∧
      (handleNewView Sample.env Sample.start Sample.reusedCert 2).map
          (fun o => proposals o.2) =
        some [{ Seq := some { Seq := 7, View := 2 }, Batch := Sample.reusedCert.Batch }] := by
  decide

/-- C9, amended: when `processNewView` fires on the certificate `nv` stored for the current
view, whose batch `b` has the decoded header `h`, it feeds exactly one proposal to
`handleCheckedPreprepare`, after `discardBacklog` and before `processBacklog`: the
batch is that of `nv`, its sequence is `h.Seq` and its view is the current view.
So when `nv` reinstates a request at sequence `S`, the proposal binds the batch of
`nv` to `(S, current view)` exactly when the header of that batch declares `S`;
the sequence of the decision itself is not consulted. -/
theorem processNewView_proposal (env : Env) (s : SBFT) (nv : NewView) (b : Batch)
    (h : BatchHeader) (hact : Activates env s nv) (hb : nv.Batch = some b)
    (hh : env.DecodeHeader b = some h) :
    ∃ tr, processNewView env s = some ({ s with activeView := true }, tr) ∧
      tr = [Event.discardBacklog (env.primaryID { s with activeView := true }),
        Event.handleCheckedPreprepare
          { Seq := some { Seq := h.Seq, View := s.view }, Batch := nv.Batch },
        Event.processBacklog] ∧
      proposals tr = [{ Seq := some { Seq := h.Seq, View := s.view }, Batch := nv.Batch }] ∧
      (∀ x sq, nv.Xset = some x → x.Seq = some sq →
        (proposals tr = [{ Seq := some { Seq := sq.Seq, View := s.view }, Batch := nv.Batch }] ↔
          h.Seq = sq.Seq)) := by
  have hp : proposals (activationTrace (env.primaryID { s with activeView := true })
      (proposalFor b h s.view)) =
      [{ Seq := some { Seq := h.Seq, View := s.view }, Batch := nv.Batch }] := by
    rw [hb]
    rfl
  refine ⟨_, processNewView_fires env s nv b h hact hb hh, ?_, hp, ?_⟩
  · rw [hb]
    rfl
  · intro x sq _ _
    rw [hp]
    constructor
    · intro heq
      simp only [List.cons.injEq, Preprepare.mk.injEq, Option.some.injEq, SeqView.mk.injEq,
        and_true, true_and] at heq
      exact heq
    · intro heq
      rw [heq]

/-- C9, amended, at a sample replica holding a certificate that reinstates a request at
sequence 5 with a batch whose header declares sequence 5: the proposal binds that
batch to sequence 5 in view 2. -/
theorem processNewView_proposal_witness :
    ∃ tr, processNewView Sample.env (recordNewView Sample.env Sample.start Sample.reinstating) =
        some ({ recordNewView Sample.env Sample.start Sample.reinstating with
          activeView := true }, tr) ∧
      tr = [Event.discardBacklog 2,
        Event.handleCheckedPreprepare
          { Seq := some { Seq := 5, View := 2 }, Batch := Sample.reinstating.Batch },
        Event.processBacklog] ∧
      proposals tr =
        [{ Seq := some { Seq := 5, View := 2 }, Batch := Sample.reinstating.Batch }] ∧
      (∀ x sq, Sample.reinstating.Xset = some x → x.Seq = some sq →
        (proposals tr =
            [{ Seq := some { Seq := sq.Seq, View := 2 }, Batch := Sample.reinstating.Batch }] ↔
          5 = sq.Seq)) :=
  processNewView_proposal Sample.env (recordNewView Sample.env Sample.start Sample.reinstating)
    Sample.reinstating { Header := some [5, 7], Payloads := [some [1]] }
    { Seq := 5, PrevHash := none, DataHash := none } ⟨by decide, by decide, by decide⟩ rfl rfl

/-- C10: when `handleNewView` accepts `nv`, whose batch `b` has the decoded header `h`, and
`nv.View` is greater than the current view, or equal to it while the view is not
active, then afterwards `view` is `nv.View`, `activeView` is true, and exactly one
proposal was emitted, binding `b` to sequence `h.Seq` in view `nv.View`. -/
theorem handleNewView_activates (env : Env) (s : SBFT) (nv : NewView) (src : Nat) (b : Batch)
    (h : BatchHeader) (hacc : validateNewView env s nv src = Verdict.accepted)
    (hview : nv.View > s.view ∨ (nv.View = s.view ∧ s.activeView = false))
    (hb : nv.Batch = some b) (hh : env.DecodeHeader b = some h) :
    ∃ s' tr, handleNewView env s nv src = some (s', tr) ∧ s'.view = nv.View ∧
      s'.activeView = true ∧ storedNewView s' (env.primaryIDView nv.View) = some nv ∧
      proposals tr = [{ Seq := some { Seq := h.Seq, View := nv.View }, Batch := some b }] := by
  obtain ⟨_, ⟨r, hr, _⟩, _⟩ := (validateNewView_accepted_iff env s nv src).1 hacc
  have hst := storedNewView_recordNewView env s nv r hr
  have hadv : (advanceView (recordNewView env s nv) nv).view = nv.View ∧
      (advanceView (recordNewView env s nv) nv).activeView = false := by
    unfold advanceView
    rcases hview with hgt | ⟨heq, hina⟩
    · have : nv.View > (recordNewView env s nv).view := hgt
      simp [this]
    · have : ¬ nv.View > (recordNewView env s nv).view := by
        show ¬ nv.View > s.view
        omega
      simp only [this, if_false]
      exact ⟨heq.symm, hina⟩
  have hact : Activates env (advanceView (recordNewView env s nv) nv) nv := by
    refine ⟨hadv.2, ?_, hadv.1.symm⟩
    unfold storedNewView at hst ⊢
    rw [advanceView_replicaState, hadv.1]
    exact hst
  have hf := processNewView_fires env _ nv b h hact hb hh
  rw [← handleNewView_of_accepted env s nv src hacc] at hf
  refine ⟨_, _, hf, hadv.1, rfl, ?_, ?_⟩
  · unfold storedNewView at hst ⊢
    show (match (advanceView (recordNewView env s nv) nv).replicaState[env.primaryIDView nv.View]?
      with | none => none | some r => r.newview) = some nv
    rw [advanceView_replicaState]
    exact hst
  · simp [activationTrace, proposals, proposalFor, hadv.1]

/-- C10 at the sample replica, in view 2 and not active: the certificate for view 2
activates view 2, and the certificate for view 5 moves it to view 5 and
activates that. -/
theorem handleNewView_activates_witness :
    (∃ s' tr, handleNewView Sample.env Sample.start Sample.nullCert 2 = some (s', tr) ∧
      s'.view = 2 ∧ s'.activeView = true ∧ storedNewView s' 2 = some Sample.nullCert ∧
      proposals tr = [{ Seq := some { Seq := 0, View := 2 }, Batch := some Sample.nullBatch }]) ∧
    (∃ s' tr, handleNewView Sample.env Sample.start Sample.laterCert 1 = some (s', tr) ∧
      s'.view = 5 ∧ s'.activeView = true ∧ storedNewView s' 1 = some Sample.laterCert ∧
      proposals tr = [{ Seq := some { Seq := 0, View := 5 }, Batch := some Sample.nullBatch }]) :=
  ⟨handleNewView_activates Sample.env Sample.start Sample.nullCert 2 Sample.nullBatch
      { Seq := 0, PrevHash := none, DataHash := none } (by decide) (Or.inr ⟨rfl, rfl⟩) rfl rfl,
    handleNewView_activates Sample.env Sample.start Sample.laterCert 1 Sample.nullBatch
      { Seq := 0, PrevHash := none, DataHash := none } (by decide) (Or.inl (by decide)) rfl rfl⟩

/-! ## The view never decreases -/

theorem maybeSendNewView_frame (env : Env) (s s' : SBFT) (tr : List Event)
    (h : maybeSendNewView env s = some (s', tr)) :
    s'.view = s.view ∧ s'.activeView = s.activeView ∧ s'.replicaState = s.replicaState ∧
      s'.cur = s.cur := by
  rcases maybeSendNewView_cases env s s' tr h with ⟨h1, _⟩ | ⟨nv, _, _, h1, _⟩ <;> subst h1 <;>
    exact ⟨rfl, rfl, rfl, rfl⟩

theorem advanceView_view (s : SBFT) (nv : NewView) :
    (advanceView s nv).view = max s.view nv.View := by
  unfold advanceView
  by_cases h : nv.View > s.view
  · simp only [h, if_true]
    omega
  · simp only [h, if_false]
    omega

/-- C11: `maybeSendNewView` and `processNewView` leave `view` unchanged; the assignments
of `handleNewView` (lines 144-147) take `view` to the larger of the old view and
`nv.View`, and any `handleNewView` call ends with a view that is not lower, equal
to `max(old view, nv.View)` when the certificate was accepted. -/
theorem view_never_decreases (env : Env) (s : SBFT) :
    (∀ s' tr, maybeSendNewView env s = some (s', tr) → s'.view = s.view) ∧
    (∀ s' tr, processNewView env s = some (s', tr) → s'.view = s.view) ∧
    (∀ nv, (advanceView (recordNewView env s nv) nv).view = max s.view nv.View) ∧
    (∀ nv src s' tr, handleNewView env s nv src = some (s', tr) →
      s.view ≤ s'.view ∧
      (validateNewView env s nv src = Verdict.accepted → s'.view = max s.view nv.View)) := by
  refine ⟨fun s' tr h => (maybeSendNewView_frame env s s' tr h).1,
    fun s' tr h => (processNewView_frame env s s' tr h).2.1,
    fun nv => advanceView_view (recordNewView env s nv) nv, ?_⟩
  intro nv src s' tr hres
  by_cases hacc : validateNewView env s nv src = Verdict.accepted
  · rw [handleNewView_of_accepted env s nv src hacc] at hres
    have hv := (processNewView_frame env _ s' tr hres).2.1
    have hm := advanceView_view (recordNewView env s nv) nv
    have hs : (recordNewView env s nv).view = s.view := rfl
    rw [hs] at hm
    refine ⟨?_, fun _ => by rw [hv, hm]⟩
    rw [hv, hm]
    exact Nat.le_max_left _ _
  · have := handleNewView_of_not_accepted env s s' nv src tr hacc hres
    subst this
    exact ⟨Nat.le_refl _, fun h => absurd h hacc⟩

/-- C11 at the sample replica in view 2: accepting the certificate for view 5 ends in
view 5, accepting an older one from another primary leaves a replica in view 5 there. -/
theorem view_never_decreases_witness :
    (handleNewView Sample.env Sample.start Sample.laterCert 1).map (fun o => o.1.view) = some 5 ∧
      (∀ s' tr, handleNewView Sample.env Sample.inViewFive Sample.nullCert 2 = some (s', tr) →
        Sample.inViewFive.view ≤ s'.view ∧
        (validateNewView Sample.env Sample.inViewFive Sample.nullCert 2 = Verdict.accepted →
          s'.view = max Sample.inViewFive.view Sample.nullCert.View)) :=
  ⟨by decide, (view_never_decreases Sample.env Sample.inViewFive).2.2.2 Sample.nullCert 2⟩

/-! ## The quorum set -/

theorem collectVotes_cons (view i : Nat) (r : ReplicaInfo) (rest : List ReplicaInfo) :
    collectVotes view i (r :: rest) =
      match r.viewchange with
      | none => collectVotes view (i + 1) rest
      | some vc =>
        if vc.View == view then
          ((i, r.signedViewchange) :: (collectVotes view (i + 1) rest).1,
            vc :: (collectVotes view (i + 1) rest).2)
        else collectVotes view (i + 1) rest := rfl

theorem collectVotes_vset_mem (view : Nat) (rs : List ReplicaInfo) (i j : Nat)
    (sv : Option Signed) :
    (j, sv) ∈ (collectVotes view i rs).1 ↔
      ∃ k r vc, j = i + k ∧ rs[k]? = some r ∧ r.viewchange = some vc ∧ vc.View = view ∧
        sv = r.signedViewchange := by
  induction rs generalizing i with
  | nil => simp [collectVotes]
  | cons r rest ih =>
    have hrest : (j, sv) ∈ (collectVotes view (i + 1) rest).1 ↔
        ∃ k r0 vc, j = i + (k + 1) ∧ (r :: rest)[k + 1]? = some r0 ∧ r0.viewchange = some vc ∧
          vc.View = view ∧ sv = r0.signedViewchange := by
      rw [ih (i + 1)]
      constructor
      · rintro ⟨k, r0, vc, h1, h2, h3⟩
        exact ⟨k, r0, vc, by omega, by simpa using h2, h3⟩
      · rintro ⟨k, r0, vc, h1, h2, h3⟩
        exact ⟨k, r0, vc, by omega, by simpa using h2, h3⟩
    have hsplit : (∃ k r0 vc, j = i + k ∧ (r :: rest)[k]? = some r0 ∧ r0.viewchange = some vc ∧
          vc.View = view ∧ sv = r0.signedViewchange) ↔
        ((∃ vc, j = i ∧ r.viewchange = some vc ∧ vc.View = view ∧ sv = r.signedViewchange) ∨
          ∃ k r0 vc, j = i + (k + 1) ∧ (r :: rest)[k + 1]? = some r0 ∧
            r0.viewchange = some vc ∧ vc.View = view ∧ sv = r0.signedViewchange) := by
      constructor
      · rintro ⟨k, r0, vc, h1, h2, h3⟩
        cases k with
        | zero =>
          simp only [List.getElem?_cons_zero, Option.some.injEq] at h2
          subst h2
          exact Or.inl ⟨vc, by omega, h3⟩
        | succ k => exact Or.inr ⟨k, r0, vc, h1, h2, h3⟩
      · rintro (⟨vc, h1, h3⟩ | ⟨k, r0, vc, h1, h2, h3⟩)
        · exact ⟨0, r, vc, by omega, by simp, h3⟩
        · exact ⟨k + 1, r0, vc, h1, h2, h3⟩
    rw [hsplit, ← hrest, collectVotes_cons]
    cases hvc : r.viewchange with
    | none => simp
    | some vc =>
      by_cases hv : vc.View = view
      · simp only [hv, beq_self_eq_true, if_true, List.mem_cons, Prod.mk.injEq,
          Option.some.injEq]
        constructor
        · rintro (⟨h1, h2⟩ | h)
          · exact Or.inl ⟨vc, h1, rfl, hv, h2⟩
          · exact Or.inr h
        · rintro (⟨vc1, h1, h2, _, h4⟩ | h)
          · exact Or.inl ⟨h1, h4⟩
          · exact Or.inr h
      · have hb : (vc.View == view) = false := by simpa using hv
        simp only [hb, Bool.false_eq_true, if_false, Option.some.injEq]
        constructor
        · intro h; exact Or.inr h
        · rintro (⟨vc1, _, h2, h3, _⟩ | h)
          · subst h2
            exact absurd h3 hv
          · exact h

theorem collectVotes_vcs_mem (view : Nat) (rs : List ReplicaInfo) (i : Nat) (vc : ViewChange) :
    vc ∈ (collectVotes view i rs).2 ↔
      ∃ (k : Nat) (r : ReplicaInfo), rs[k]? = some r ∧ r.viewchange = some vc ∧
        vc.View = view := by
  induction rs generalizing i with
  | nil => simp [collectVotes]
  | cons r rest ih =>
    have hsplit : (∃ (k : Nat) (r0 : ReplicaInfo), (r :: rest)[k]? = some r0 ∧
        r0.viewchange = some vc ∧ vc.View = view) ↔
        ((r.viewchange = some vc ∧ vc.View = view) ∨
          ∃ (k : Nat) (r0 : ReplicaInfo), rest[k]? = some r0 ∧ r0.viewchange = some vc ∧
            vc.View = view) := by
      constructor
      · rintro ⟨k, r0, h2, h3⟩
        cases k with
        | zero =>
          simp only [List.getElem?_cons_zero, Option.some.injEq] at h2
          subst h2
          exact Or.inl h3
        | succ k => exact Or.inr ⟨k, r0, by simpa using h2, h3⟩
      · rintro (h3 | ⟨k, r0, h2, h3⟩)
        · exact ⟨0, r, by simp, h3⟩
        · exact ⟨k + 1, r0, by simpa using h2, h3⟩
    rw [hsplit, ← ih (i + 1), collectVotes_cons]
    cases hvc : r.viewchange with
    | none => simp
    | some vc0 =>
      by_cases hv : vc0.View = view
      · simp only [hv, beq_self_eq_true, if_true, List.mem_cons, Option.some.injEq]
        constructor
        · rintro (h | h)
          · subst h
            exact Or.inl ⟨rfl, hv⟩
          · exact Or.inr h
        · rintro (⟨h1, _⟩ | h)
          · exact Or.inl h1.symm
          · exact Or.inr h
      · have hb : (vc0.View == view) = false := by simpa using hv
        simp only [hb, Bool.false_eq_true, if_false, Option.some.injEq]
        constructor
        · intro h; exact Or.inr h
        · rintro (⟨h1, h2⟩ | h)
          · subst h1
            exact absurd h2 hv
          · exact h

theorem collectVotes_keys_lt (view : Nat) (rs : List ReplicaInfo) (i : Nat) :
    ((collectVotes view i rs).1.map Prod.fst).Pairwise (· < ·) ∧
      ∀ k ∈ (collectVotes view i rs).1.map Prod.fst, i ≤ k := by
  induction rs generalizing i with
  | nil => simp [collectVotes]
  | cons r rest ih =>
    obtain ⟨hp, hl⟩ := ih (i + 1)
    have hl2 : ∀ k ∈ (collectVotes view (i + 1) rest).1.map Prod.fst, i ≤ k :=
      fun k hk => Nat.le_of_succ_le (hl k hk)
    rw [collectVotes_cons]
    cases hvc : r.viewchange with
    | none => exact ⟨hp, hl2⟩
    | some vc =>
      by_cases hv : vc.View = view
      · simp only [hv, beq_self_eq_true, if_true, List.map_cons, List.pairwise_cons,
          List.mem_cons, forall_eq_or_imp, Nat.le_refl, true_and]
        exact ⟨⟨fun k hk => hl k hk, hp⟩, hl2⟩
      · have hb : (vc.View == view) = false := by simpa using hv
        simp only [hb, Bool.false_eq_true, if_false]
        exact ⟨hp, hl2⟩

theorem maybeSendNewView_broadcast (env : Env) (s s' : SBFT) (tr : List Event) (nv : NewView)
    (h : maybeSendNewView env s = some (s', tr)) (hb : Event.broadcast nv ∈ tr) :
    alreadySent s = false ∧ s' = { s with lastNewViewSent := some nv } ∧
      tr = [Event.broadcast nv] ∧
      (env.makeXset (collectVotes s.view 0 s.replicaState).2).2.2 = true ∧
      ((∃ nb, (env.makeXset (collectVotes s.view 0 s.replicaState).2).2.1 = some nb ∧
          nv = certificateOf s (env.makeXset (collectVotes s.view 0 s.replicaState).2).1
            (some nb)) ∨
        ((env.makeXset (collectVotes s.view 0 s.replicaState).2).2.1 = none ∧
          ∃ x, (env.makeXset (collectVotes s.view 0 s.replicaState).2).1 = some x ∧
            ((s.cur.subject.Digest = x.Digest ∧ ∃ pp, s.cur.preprep = some pp ∧
                nv = certificateOf s (some x) pp.Batch) ∨
              (s.cur.subject.Digest ≠ x.Digest ∧ nv = certificateOf s none none)))) := by
  unfold maybeSendNewView at h
  cases hs : alreadySent s with
  | true =>
    simp only [hs, if_true, Option.some.injEq, Prod.mk.injEq] at h
    rw [← h.2] at hb
    cases hb
  | false =>
    simp only [hs, Bool.false_eq_true, if_false] at h
    cases hok : (env.makeXset (collectVotes s.view 0 s.replicaState).2).2.2 with
    | false =>
      simp only [hok, Bool.not_false, if_true, Option.some.injEq, Prod.mk.injEq] at h
      rw [← h.2] at hb
      cases hb
    | true =>
      simp only [hok, Bool.not_true, Bool.false_eq_true, if_false] at h
      have fin : ∀ nv0 : NewView,
          some (({ s with lastNewViewSent := some nv0 } : SBFT), [Event.broadcast nv0]) =
            some (s', tr) →
          nv0 = nv ∧ s' = { s with lastNewViewSent := some nv } ∧ tr = [Event.broadcast nv] := by
        intro nv0 h0
        simp only [Option.some.injEq, Prod.mk.injEq] at h0
        have hnv : nv0 = nv := by
          rw [← h0.2] at hb
          simp only [List.mem_singleton, Event.broadcast.injEq] at hb
          exact hb.symm
        subst hnv
        exact ⟨rfl, h0.1.symm, h0.2.symm⟩
      cases hnb : (env.makeXset (collectVotes s.view 0 s.replicaState).2).2.1 with
      | some nb =>
        simp only [hnb, sendNewView] at h
        obtain ⟨h1, h2, h3⟩ := fin _ h
        exact ⟨rfl, h2, h3, rfl, Or.inl ⟨nb, rfl, h1.symm⟩⟩
      | none =>
        simp only [hnb] at h
        cases hx : (env.makeXset (collectVotes s.view 0 s.replicaState).2).1 with
        | none => simp [hx] at h
        | some x =>
          simp only [hx] at h
          by_cases hd : s.cur.subject.Digest = x.Digest
          · simp only [hd, if_true] at h
            cases hp : s.cur.preprep with
            | none => simp [hp] at h
            | some pp =>
              simp only [hp, sendNewView] at h
              obtain ⟨h1, h2, h3⟩ := fin _ h
              exact ⟨rfl, h2, h3, rfl,
                Or.inr ⟨rfl, x, rfl, Or.inl ⟨hd, pp, rfl, h1.symm⟩⟩⟩
          · simp only [hd, if_false] at h
            cases hq : x.Seq with
            | none => simp [hq] at h
            | some q =>
              simp only [hq, sendNewView] at h
              obtain ⟨h1, h2, h3⟩ := fin _ h
              exact ⟨rfl, h2, h3, rfl, Or.inr ⟨rfl, x, rfl, Or.inr ⟨hd, h1.symm⟩⟩⟩

theorem maybeSendNewView_broadcast_vset (env : Env) (s s' : SBFT) (tr : List Event)
    (nv : NewView) (h : maybeSendNewView env s = some (s', tr))
    (hb : Event.broadcast nv ∈ tr) :
    nv.View = s.view ∧ nv.Vset = (collectVotes s.view 0 s.replicaState).1 := by
  obtain ⟨_, _, _, _, hc⟩ := maybeSendNewView_broadcast env s s' tr nv h hb
  rcases hc with ⟨nb, _, hnv⟩ | ⟨_, x, _, ⟨_, pp, _, hnv⟩ | ⟨_, hnv⟩⟩ <;> subst hnv <;>
    exact ⟨rfl, rfl⟩

theorem collectVotes_eq_filterMap (view : Nat) (rs : List ReplicaInfo) (i : Nat) :
    collectVotes view i rs =
      ((rs.enumFrom i).filterMap (matchingEntry view), rs.filterMap (matchingVote view)) := by
  induction rs generalizing i with
  | nil => rfl
  | cons r rest ih =>
    rw [collectVotes_cons, ih (i + 1), List.enumFrom_cons]
    cases hvc : r.viewchange with
    | none => simp [matchingEntry, matchingVote, hvc]
    | some vc =>
      by_cases hv : vc.View = view
      · simp [matchingEntry, matchingVote, hvc, hv]
      · have hb : (vc.View == view) = false := by simpa using hv
        simp [matchingEntry, matchingVote, hvc, hv, hb]

theorem collectVotes_matching (s : SBFT) :
    collectVotes s.view 0 s.replicaState = (matchingEntries s, matchingVotes s) :=
  collectVotes_eq_filterMap s.view s.replicaState 0

theorem maybeSendNewView_resolver_ext (env env' : Env) (s : SBFT)
    (h : env'.makeXset (matchingVotes s) = env.makeXset (matchingVotes s)) :
    maybeSendNewView env' s = maybeSendNewView env s := by
  unfold maybeSendNewView
  simp only [collectVotes_matching, h]

/-- C12: a certificate that `maybeSendNewView` broadcasts is for `s.view`. Its `Vset` is
the list of entries of the records that hold a vote with `View` equal to `s.view`:
one entry per such replica id, mapped to the signed vote of that record, and no
other entry. The resolver is run on exactly the votes of those records: it is
ready on that list, the decision of the certificate is the one it returns on that
list (or nil), and the outcome of the call is the same for any resolver that
returns the same on that list, whatever it returns on lists holding votes for
other views. `replicaState` is not modified. -/
theorem maybeSendNewView_quorum_set (env : Env) (s s' : SBFT) (tr : List Event) (nv : NewView)
    (h : maybeSendNewView env s = some (s', tr)) (hb : Event.broadcast nv ∈ tr) :
    nv.View = s.view ∧
      nv.Vset = matchingEntries s ∧
      (∀ id sv, (id, sv) ∈ nv.Vset ↔ ∃ vc, RecordedVote s s.view id vc sv) ∧
      (nv.Vset.map Prod.fst).Nodup ∧
      (∀ vc, vc ∈ matchingVotes s ↔ ∃ id sv, RecordedVote s s.view id vc sv) ∧
      (env.makeXset (matchingVotes s)).2.2 = true ∧
      (nv.Xset = (env.makeXset (matchingVotes s)).1 ∨ nv.Xset = none) ∧
      (∀ env' : Env, env'.makeXset (matchingVotes s) = env.makeXset (matchingVotes s) →
        maybeSendNewView env' s = maybeSendNewView env s) ∧
      s'.replicaState = s.replicaState := by
  obtain ⟨hv, hvs⟩ := maybeSendNewView_broadcast_vset env s s' tr nv h hb
  obtain ⟨_, _, _, hok, hc⟩ := maybeSendNewView_broadcast env s s' tr nv h hb
  have hcm := collectVotes_matching s
  have h1 : (collectVotes s.view 0 s.replicaState).1 = matchingEntries s := by rw [hcm]
  have h2 : (collectVotes s.view 0 s.replicaState).2 = matchingVotes s := by rw [hcm]
  refine ⟨hv, by rw [hvs, h1], ?_, ?_, ?_, by rw [← h2]; exact hok, ?_,
    fun env' he => maybeSendNewView_resolver_ext env env' s he,
    (maybeSendNewView_frame env s s' tr h).2.2.1⟩
  · intro id sv
    rw [hvs, collectVotes_vset_mem]
    constructor
    · rintro ⟨k, r, vc, h1, h2, h3, h4, h5⟩
      have : id = k := by omega
      subst this
      exact ⟨vc, r, h2, h3, h4, h5⟩
    · rintro ⟨vc, r, h2, h3, h4, h5⟩
      exact ⟨id, r, vc, by omega, h2, h3, h4, h5⟩
  · rw [hvs]
    exact ((collectVotes_keys_lt s.view s.replicaState 0).1).imp (fun h => Nat.ne_of_lt h)
  · intro vc
    rw [← h2, collectVotes_vcs_mem]
    constructor
    · rintro ⟨k, r, h2, h3, h4⟩
      exact ⟨k, r.signedViewchange, r, h2, h3, h4, rfl⟩
    · rintro ⟨id, sv, r, h2, h3, h4, _⟩
      exact ⟨id, r, h2, h3, h4⟩
  · rw [← h2]
    rcases hc with ⟨nb, _, hnv⟩ | ⟨_, x, hx, ⟨_, pp, _, hnv⟩ | ⟨_, hnv⟩⟩
    · exact Or.inl (by rw [hnv]; rfl)
    · exact Or.inl (by rw [hnv, hx]; rfl)
    · exact Or.inr (by rw [hnv]; rfl)

/-- C12 at the sample primary that holds the votes of replicas 0, 1 and 3 for view 2 and a
vote of replica 2 for view 3: the certificate lists replicas 0, 1 and 3 only, and
the resolver, which would reinstate the request reported by replica 2 had it been
given that vote, is run on the three votes for view 2 and returns the null
decision. -/
theorem maybeSendNewView_quorum_set_witness :
    maybeSendNewView Sample.env Sample.mixed =
        issued Sample.mixed (certificateOf Sample.mixed none (some Sample.nullBatch)) ∧
      (Sample.env.makeXset (Sample.mixed.replicaState.filterMap (fun r => r.viewchange))).1 =
        some { Seq := some { View := 2, Seq := 5 }, Digest := some [7] } ∧
      matchingVotes Sample.mixed =
        [{ View := 2, Pset := [], Qset := [], Checkpoint := none },
          { View := 2, Pset := [], Qset := [], Checkpoint := none },
          { View := 2, Pset := [], Qset := [], Checkpoint := none }] ∧
      (certificateOf Sample.mixed none (some Sample.nullBatch)).Vset =
        [(0, some (Sample.vote 0 2)), (1, some (Sample.vote 1 2)), (3, some (Sample.vote 3 2))] ∧
      (certificateOf Sample.mixed none (some Sample.nullBatch)).Vset = matchingEntries Sample.mixed ∧
      (Sample.env.makeXset (matchingVotes Sample.mixed)).2.2 = true :=
  have h := maybeSendNewView_quorum_set Sample.env Sample.mixed
    { Sample.mixed with
      lastNewViewSent := some (certificateOf Sample.mixed none (some Sample.nullBatch)) }
    [Event.broadcast (certificateOf Sample.mixed none (some Sample.nullBatch))]
    (certificateOf Sample.mixed none (some Sample.nullBatch)) (by decide)
    (List.mem_singleton.2 rfl)
  ⟨by decide, by decide, by decide, by decide, h.2.1, h.2.2.2.2.2.1⟩

/-! ## The batch the issuer attaches -/

/-- C13: when no `NewView` was sent for `s.view` yet, `maybeSendNewView` (a) returns the
state as it is, without a call, if the resolver is not ready; (b) broadcasts and
remembers a certificate with the resolver's decision and the synthesized batch
whenever the resolver returns a batch; (c) otherwise, for a decision `x` and an
in-flight proposal `pp`, broadcasts and remembers a certificate with decision `x`
and batch `pp.Batch` when `s.cur.subject.Digest` is deeply equal to `x.Digest`, and
when it is not, attaches neither a batch nor the decision to what it broadcasts. -/
theorem maybeSendNewView_batch_selection (env : Env) (s : SBFT) (hsent : alreadySent s = false) :
    ((resolved env s).2.2 = false → maybeSendNewView env s = some (s, [])) ∧
    (∀ nb, (resolved env s).2.2 = true → (resolved env s).2.1 = some nb →
      maybeSendNewView env s = issued s (certificateOf s (resolved env s).1 (some nb))) ∧
    (∀ x pp, (resolved env s).2.2 = true → (resolved env s).2.1 = none →
      (resolved env s).1 = some x → s.cur.preprep = some pp →
      (s.cur.subject.Digest = x.Digest →
        maybeSendNewView env s = issued s (certificateOf s (some x) pp.Batch)) ∧
      (s.cur.subject.Digest ≠ x.Digest →
        ∀ s' tr nv, maybeSendNewView env s = some (s', tr) → Event.broadcast nv ∈ tr →
          nv.Xset = none ∧ nv.Batch = none)) := by
  unfold resolved
  refine ⟨?_, ?_, ?_⟩
  · intro hok
    simp [maybeSendNewView, hsent, hok]
  · intro nb hok hnb
    simp [maybeSendNewView, hsent, hok, hnb, sendNewView, issued, certificateOf]
  · intro x pp hok hnb hx hpp
    refine ⟨?_, ?_⟩
    · intro hd
      simp [maybeSendNewView, hsent, hok, hnb, hx, hpp, hd, sendNewView, issued, certificateOf]
    · intro hd s' tr nv hres hb
      obtain ⟨_, _, _, _, hc⟩ := maybeSendNewView_broadcast env s s' tr nv hres hb
      rcases hc with ⟨nb, hnb2, _⟩ | ⟨_, x2, hx2, ⟨hd2, _⟩ | ⟨_, hnv⟩⟩
      · rw [hnb] at hnb2
        cases hnb2
      · rw [hx] at hx2
        cases hx2
        exact absurd hd2 hd
      · subst hnv
        exact ⟨rfl, rfl⟩

/-- C13 at the sample primary that has the reported request in flight: the in-flight
batch is attached, with the decision unchanged. -/
theorem maybeSendNewView_batch_selection_witness :
    Sample.holding.cur.subject.Digest = Sample.lostRequest.Digest ∧
      maybeSendNewView Sample.env Sample.holding =
        issued Sample.holding (certificateOf Sample.holding (some Sample.lostRequest)
          (some { Header := some [7], Payloads := [some [1]] })) :=
  ⟨rfl, ((maybeSendNewView_batch_selection Sample.env Sample.holding (by decide)).2.2
    Sample.lostRequest
    { Seq := some { View := 1, Seq := 5 },
      Batch := some { Header := some [7], Payloads := [some [1]] } }
    (by decide) (by decide) (by decide) rfl).1 rfl⟩

/-! ## Issuer and validator agree -/

theorem bytesEqual_self (a : Bytes) : bytesEqual a a = true := by
  simp [bytesEqual]

theorem collectVotes_decode (env : Env) (view : Nat) (rs : List ReplicaInfo) (i : Nat)
    (h : ∀ (k : Nat) (r : ReplicaInfo) (vc : ViewChange), rs[k]? = some r →
      r.viewchange = some vc → vc.View = view →
      env.checkSig r.signedViewchange (i + k) = .ok vc) :
    (collectVotes view i rs).1.filterMap (decodeVote env) = (collectVotes view i rs).2 := by
  induction rs generalizing i with
  | nil => simp [collectVotes]
  | cons r rest ih =>
    have hrest := ih (i + 1) (by
      intro k r0 vc h1 h2 h3
      have := h (k + 1) r0 vc (by simpa using h1) h2 h3
      rw [← this]
      congr 1
      omega)
    rw [collectVotes_cons]
    cases hvc : r.viewchange with
    | none => exact hrest
    | some vc =>
      by_cases hv : vc.View = view
      · have h0 := h 0 r vc (by simp) hvc hv
        have hdec : decodeVote env (i, r.signedViewchange) = some vc := by
          simp only [decodeVote]
          rw [Nat.add_zero] at h0
          rw [h0]
        simp only [hv, beq_self_eq_true, if_true, List.filterMap_cons, hdec, hrest]
      · have hb : (vc.View == view) = false := by simpa using hv
        simp only [hb, Bool.false_eq_true, if_false]
        exact hrest

theorem handleNewView_accepted_fires (env : Env) (s : SBFT) (nv : NewView) (src : Nat)
    (b : Batch) (h : BatchHeader) (hacc : validateNewView env s nv src = Verdict.accepted)
    (hview : nv.View > s.view ∨ (nv.View = s.view ∧ s.activeView = false))
    (hb : nv.Batch = some b) (hh : env.DecodeHeader b = some h) :
    handleNewView env s nv src =
      some ({ advanceView (recordNewView env s nv) nv with activeView := true },
        activationTrace
          (env.primaryID { advanceView (recordNewView env s nv) nv with activeView := true })
          (proposalFor b h nv.View)) ∧
      (advanceView (recordNewView env s nv) nv).view = nv.View ∧
      storedNewView (advanceView (recordNewView env s nv) nv) (env.primaryIDView nv.View) =
        some nv := by
  obtain ⟨_, ⟨r, hr, _⟩, _⟩ := (validateNewView_accepted_iff env s nv src).1 hacc
  have hst := storedNewView_recordNewView env s nv r hr
  have hadv : (advanceView (recordNewView env s nv) nv).view = nv.View ∧
      (advanceView (recordNewView env s nv) nv).activeView = false := by
    unfold advanceView
    rcases hview with hgt | ⟨heq, hina⟩
    · have : nv.View > (recordNewView env s nv).view := hgt
      simp [this]
    · have : ¬ nv.View > (recordNewView env s nv).view := by
        show ¬ nv.View > s.view
        omega
      simp only [this, if_false]
      exact ⟨heq.symm, hina⟩
  have hst2 : storedNewView (advanceView (recordNewView env s nv) nv)
      (env.primaryIDView nv.View) = some nv := by
    unfold storedNewView at hst ⊢
    rw [advanceView_replicaState]
    exact hst
  have hact : Activates env (advanceView (recordNewView env s nv) nv) nv := by
    refine ⟨hadv.2, ?_, hadv.1.symm⟩
    rw [hadv.1]
    exact hst2
  have hf := processNewView_fires env _ nv b h hact hb hh
  have hpp : proposalFor b h (advanceView (recordNewView env s nv) nv).view =
      proposalFor b h nv.View := by rw [hadv.1]
  rw [← handleNewView_of_accepted env s nv src hacc, hpp] at hf
  exact ⟨hf, hadv.1, hst2⟩

theorem issued_certificate_valid (envI envF : Env) (si si' : SBFT) (tr : List Event)
    (nv nv' : NewView) (b : Batch)
    (hiss : maybeSendNewView envI si = some (si', tr)) (hbc : Event.broadcast nv ∈ tr)
    (hb : nv.Batch = some b) (hsame : SameCertificate nv nv')
    (hres : envF.makeXset = envI.makeXset) (hperm : PermInvariant envF)
    (hnull : NullSynthesisOnly envI) (hver : VotesVerify envF si)
    (hbatch : ∃ u, envF.checkBatch (some b) true false = .ok u)
    (hhash : (resolved envI si).2.1 = none →
      bytesEqual (envF.Hash b) si.cur.subject.Digest = true) :
    ContentValid envF nv' := by
  obtain ⟨hV, hVs, hX, hB⟩ := hsame
  obtain ⟨hview, hvset⟩ := maybeSendNewView_broadcast_vset envI si si' tr nv hiss hbc
  obtain ⟨_, _, _, hok, hc⟩ := maybeSendNewView_broadcast envI si si' tr nv hiss hbc
  -- the decoded votes are the issuer's votes, in another order
  have hdec : decodedVotes envF nv = (collectVotes si.view 0 si.replicaState).2 := by
    unfold decodedVotes
    rw [hvset]
    apply collectVotes_decode
    intro k r vc h1 h2 h3
    rw [Nat.zero_add]
    exact (hver k vc r.signedViewchange ⟨r, h1, h2, h3, rfl⟩).1
  have hmk : envF.makeXset (decodedVotes envF nv') =
      envI.makeXset (collectVotes si.view 0 si.replicaState).2 := by
    have hp : (decodedVotes envF nv').Perm (decodedVotes envF nv) :=
      List.Perm.filterMap _ hVs
    rw [hperm _ _ hp, hdec, hres]
  refine ⟨?_, b, by rw [hB, hb], ?_, ?_, hbatch⟩
  · intro e he
    have he2 : e ∈ nv.Vset := hVs.mem_iff.1 he
    rw [hvset] at he2
    obtain ⟨k, r, vc, h1, h2, h3, h4, h5⟩ :=
      (collectVotes_vset_mem si.view si.replicaState 0 e.1 e.2).1 he2
    have hk : e.1 = k := by omega
    obtain ⟨hs, hcp⟩ := hver k vc e.2 ⟨r, h2, h3, h4, h5⟩
    refine ⟨vc, by rw [hk]; exact hs, ?_, hcp⟩
    rw [h4, hV, hview]
  · unfold DecisionRederived
    rw [hmk, hX]
    refine ⟨hok, ?_⟩
    rcases hc with ⟨nb, _, hnv⟩ | ⟨_, x, hx, ⟨_, pp, _, hnv⟩ | ⟨_, hnv⟩⟩
    · rw [hnv]; rfl
    · rw [hnv, hx]; rfl
    · rw [hnv] at hb
      cases hb
  · unfold DigestConsistent
    rw [hmk, hX]
    rcases hc with ⟨nb, hnb, hnv⟩ | ⟨hnone, x, hx, ⟨hd, pp, _, hnv⟩ | ⟨_, hnv⟩⟩
    · have hxn := hnull _ nb hnb
      have hbn : b = nb := by
        rw [hnv] at hb
        simp only [certificateOf, Option.some.injEq] at hb
        exact hb.symm
      have hxs : nv.Xset = none := by rw [hnv]; exact hxn
      rw [hxs]
      exact ⟨nb, hnb, by rw [hbn]; exact bytesEqual_self _⟩
    · have hxs : nv.Xset = some x := by rw [hnv]; rfl
      rw [hxs]
      show bytesEqual (envF.Hash b) x.Digest = true
      rw [← hd]
      exact hhash hnone
    · rw [hnv] at hb
      cases hb

/-- C14: let the issuer broadcast `nv` with batch `b` attached, and let a follower
receive it as `nv'` (the same certificate, its `Vset` enumerated in any order)
from the primary of its view. If the follower holds no certificate of that
primary for a view at or above `nv.View`, verifies each recorded vote of the
issuer against its id to the vote itself with a checkpoint that passes, accepts
`b` in `checkBatch`, and runs the same order-insensitive resolver (which
synthesizes a batch only for a null decision; in the reuse branch `b` hashes to
`s.cur.subject.Digest`), then the follower accepts and records `nv'`; and when
`nv.View` is above its view, or equal to it while not active, and the header of
`b` decodes, it ends active in `nv.View` with `nv'` stored. -/
theorem issuer_validator_agreement (envI envF : Env) (si si' sf : SBFT) (tr : List Event)
    (nv nv' : NewView) (b : Batch)
    (hiss : maybeSendNewView envI si = some (si', tr)) (hbc : Event.broadcast nv ∈ tr)
    (hb : nv.Batch = some b) (hsame : SameCertificate nv nv')
    (hres : envF.makeXset = envI.makeXset) (hperm : PermInvariant envF)
    (hnull : NullSynthesisOnly envI) (hfresh : Fresh envF sf nv')
    (hver : VotesVerify envF si)
    (hbatch : ∃ u, envF.checkBatch (some b) true false = .ok u)
    (hhash : (resolved envI si).2.1 = none →
      bytesEqual (envF.Hash b) si.cur.subject.Digest = true) :
    validateNewView envF sf nv' (envF.primaryIDView nv'.View) = Verdict.accepted ∧
      storedNewView (recordNewView envF sf nv') (envF.primaryIDView nv'.View) = some nv' ∧
      (∀ h, envF.DecodeHeader b = some h →
        (nv'.View > sf.view ∨ (nv'.View = sf.view ∧ sf.activeView = false)) →
        ∃ s' tr', handleNewView envF sf nv' (envF.primaryIDView nv'.View) = some (s', tr') ∧
          s'.view = nv.View ∧ s'.activeView = true ∧
          storedNewView s' (envF.primaryIDView nv'.View) = some nv') := by
  have hcv := issued_certificate_valid envI envF si si' tr nv nv' b hiss hbc hb hsame hres
    hperm hnull hver hbatch hhash
  have hacc : validateNewView envF sf nv' (envF.primaryIDView nv'.View) = Verdict.accepted :=
    (validateNewView_accepted_iff envF sf nv' _).2 ⟨rfl, hfresh, hcv⟩
  obtain ⟨r, hr, _⟩ := hfresh
  refine ⟨hacc, storedNewView_recordNewView envF sf nv' r hr, ?_⟩
  intro h hh hview
  have hb' : nv'.Batch = some b := by rw [hsame.2.2.2, hb]
  obtain ⟨hf, hv, hst⟩ := handleNewView_accepted_fires envF sf nv' _ b h hacc hview hb' hh
  refine ⟨_, _, hf, ?_, rfl, ?_⟩
  · show (advanceView (recordNewView envF sf nv') nv').view = nv.View
    rw [hv, hsame.1]
  · exact hst

theorem Sample.nullEnv_permInvariant : PermInvariant Sample.nullEnv := by
  intro l l' h
  show (if l.length < 3 then ((none, none, false) : Option Subject × Option Batch × Bool)
      else (none, some Sample.nullBatch, true)) =
    (if l'.length < 3 then (none, none, false) else (none, some Sample.nullBatch, true))
  rw [h.length_eq]

theorem Sample.nullEnv_nullSynthesisOnly : NullSynthesisOnly Sample.nullEnv := by
  intro vcs nb _
  show (if vcs.length < 3 then ((none, none, false) : Option Subject × Option Batch × Bool)
      else (none, some Sample.nullBatch, true)).1 = none
  split <;> rfl

theorem Sample.quorate_votesVerify : VotesVerify Sample.nullEnv Sample.quorate := by
  rintro id vc sv ⟨r, h1, h2, h3, h4⟩
  have hrs : Sample.quorate.replicaState =
      [Sample.voted 0 2, Sample.voted 1 2, Sample.blank, Sample.voted 3 2] := rfl
  rw [hrs] at h1
  rcases id with _ | _ | _ | _ | id
  · simp only [List.getElem?_cons_zero, Option.some.injEq] at h1
    subst h1
    cases h2
    subst h4
    exact ⟨rfl, (), rfl⟩
  · simp only [List.getElem?_cons_succ, List.getElem?_cons_zero, Option.some.injEq] at h1
    subst h1
    cases h2
    subst h4
    exact ⟨rfl, (), rfl⟩
  · simp only [List.getElem?_cons_succ, List.getElem?_cons_zero, Option.some.injEq] at h1
    subst h1
    cases h2
  · simp only [List.getElem?_cons_succ, List.getElem?_cons_zero, Option.some.injEq] at h1
    subst h1
    cases h2
    subst h4
    exact ⟨rfl, (), rfl⟩
  · simp at h1

/-- C14 at the sample replicas: the primary of view 2 issues the null certificate, and a
follower in view 2 that enumerates its `Vset` in another order accepts it and
becomes active in view 2. -/
theorem issuer_validator_agreement_witness :
    maybeSendNewView Sample.nullEnv Sample.quorate =
        issued Sample.quorate (certificateOf Sample.quorate none (some Sample.nullBatch)) ∧
      validateNewView Sample.nullEnv Sample.start Sample.shuffledCert 2 = Verdict.accepted ∧
      ∃ s' tr', handleNewView Sample.nullEnv Sample.start Sample.shuffledCert 2 = some (s', tr') ∧
        s'.view = 2 ∧ s'.activeView = true ∧ storedNewView s' 2 = some Sample.shuffledCert :=
  have h := issuer_validator_agreement Sample.nullEnv Sample.nullEnv Sample.quorate
    { Sample.quorate with
      lastNewViewSent := some (certificateOf Sample.quorate none (some Sample.nullBatch)) }
    Sample.start [Event.broadcast (certificateOf Sample.quorate none (some Sample.nullBatch))]
    (certificateOf Sample.quorate none (some Sample.nullBatch)) Sample.shuffledCert
    Sample.nullBatch (by decide) (List.mem_singleton.2 rfl) rfl ⟨rfl, by decide, rfl, rfl⟩ rfl
    Sample.nullEnv_permInvariant Sample.nullEnv_nullSynthesisOnly
    ⟨Sample.blank, by decide, Or.inl rfl⟩ Sample.quorate_votesVerify ⟨(), rfl⟩
    (fun h => absurd h (by decide))
  ⟨by decide, h.1,
    h.2.2 { Seq := 0, PrevHash := none, DataHash := none } rfl (Or.inr ⟨rfl, rfl⟩)⟩

/-! ## Independence of the iteration order -/

theorem maybeSendNewView_eq_issueWith (env : Env) (s : SBFT) :
    maybeSendNewView env s =
      if alreadySent s then some (s, [])
      else issueWith env s (collectVotes s.view 0 s.replicaState) := rfl

theorem collectVotes_eq_over (view : Nat) (rs : List ReplicaInfo) (i : Nat) :
    collectVotes view i rs = collectVotesOver view (rs.enumFrom i) := by
  induction rs generalizing i with
  | nil => rfl
  | cons r rest ih =>
    rw [collectVotes_cons, List.enumFrom_cons]
    simp only [collectVotesOver, ih (i + 1)]

theorem collectVotesOver_cons (view src : Nat) (state : ReplicaInfo)
    (rest : List (Nat × ReplicaInfo)) :
    collectVotesOver view ((src, state) :: rest) =
      match state.viewchange with
      | none => collectVotesOver view rest
      | some vc =>
        if vc.View == view then
          ((src, state.signedViewchange) :: (collectVotesOver view rest).1,
            vc :: (collectVotesOver view rest).2)
        else collectVotesOver view rest := rfl

theorem collectVotesOver_perm (view : Nat) (l l' : List (Nat × ReplicaInfo)) (h : l.Perm l') :
    (collectVotesOver view l).1.Perm (collectVotesOver view l').1 ∧
      (collectVotesOver view l).2.Perm (collectVotesOver view l').2 := by
  induction h with
  | nil => exact ⟨List.Perm.refl _, List.Perm.refl _⟩
  | cons x _ ih =>
    obtain ⟨src, state⟩ := x
    rw [collectVotesOver_cons, collectVotesOver_cons]
    cases hvc : state.viewchange with
    | none => exact ih
    | some vc =>
      by_cases hv : (vc.View == view) = true
      · simp only [hv, if_true]
        exact ⟨ih.1.cons _, ih.2.cons _⟩
      · simp only [hv, if_false]
        exact ih
  | swap x y l0 =>
    obtain ⟨sx, stx⟩ := x
    obtain ⟨sy, sty⟩ := y
    simp only [collectVotesOver_cons]
    cases hx : stx.viewchange with
    | none =>
      cases hy : sty.viewchange with
      | none => exact ⟨List.Perm.refl _, List.Perm.refl _⟩
      | some vy =>
        by_cases hvy : (vy.View == view) = true
        · simp only [hvy, if_true]
          exact ⟨List.Perm.refl _, List.Perm.refl _⟩
        · simp only [hvy, if_false]
          exact ⟨List.Perm.refl _, List.Perm.refl _⟩
    | some vx =>
      cases hy : sty.viewchange with
      | none =>
        by_cases hvx : (vx.View == view) = true
        · simp only [hvx, if_true]
          exact ⟨List.Perm.refl _, List.Perm.refl _⟩
        · simp only [hvx, if_false]
          exact ⟨List.Perm.refl _, List.Perm.refl _⟩
      | some vy =>
        by_cases hvx : (vx.View == view) = true <;> by_cases hvy : (vy.View == view) = true
        · simp only [hvx, hvy, if_true]
          exact ⟨List.Perm.swap _ _ _, List.Perm.swap _ _ _⟩
        · simp only [hvx, hvy, if_true, if_false]
          exact ⟨List.Perm.refl _, List.Perm.refl _⟩
        · simp only [hvx, hvy, if_true, if_false]
          exact ⟨List.Perm.refl _, List.Perm.refl _⟩
        · simp only [hvx, hvy, if_false]
          exact ⟨List.Perm.refl _, List.Perm.refl _⟩
  | trans _ _ ih1 ih2 => exact ⟨ih1.1.trans ih2.1, ih1.2.trans ih2.2⟩

theorem sameIssue_issued (s : SBFT) (vset vset' : List (Nat × Option Signed))
    (xset : Option Subject) (batch : Option Batch) (h : vset'.Perm vset) :
    SameIssue s (sendNewView s vset xset batch) (sendNewView s vset' xset batch) :=
  Or.inr (Or.inr ⟨{ View := s.view, Vset := vset, Xset := xset, Batch := batch },
    { View := s.view, Vset := vset', Xset := xset, Batch := batch },
    ⟨rfl, h, rfl, rfl⟩, rfl, rfl⟩)

theorem issueWith_perm (env : Env) (s : SBFT)
    (votes votes' : List (Nat × Option Signed) × List ViewChange)
    (h1 : votes'.1.Perm votes.1) (h2 : env.makeXset votes'.2 = env.makeXset votes.2) :
    SameIssue s (issueWith env s votes) (issueWith env s votes') := by
  unfold issueWith
  simp only [h2]
  cases hok : (env.makeXset votes.2).2.2 with
  | false =>
    simp only [Bool.not_false, if_true]
    exact Or.inr (Or.inl ⟨rfl, rfl⟩)
  | true =>
    simp only [Bool.not_true, Bool.false_eq_true, if_false]
    cases hnb : (env.makeXset votes.2).2.1 with
    | some nb => exact sameIssue_issued s _ _ _ _ h1
    | none =>
      simp only
      cases hx : (env.makeXset votes.2).1 with
      | none => exact Or.inl ⟨rfl, rfl⟩
      | some x =>
        simp only
        by_cases hd : s.cur.subject.Digest = x.Digest
        · simp only [hd, if_true]
          cases hp : s.cur.preprep with
          | none => exact Or.inl ⟨rfl, rfl⟩
          | some pp => exact sameIssue_issued s _ _ _ _ h1
        · simp only [hd, if_false]
          cases hq : x.Seq with
          | none => exact Or.inl ⟨rfl, rfl⟩
          | some q => exact sameIssue_issued s _ _ _ _ h1

theorem maybeSendNewViewOver_perm (env : Env) (s : SBFT) (order : List (Nat × ReplicaInfo))
    (hperm : PermInvariant env) (hord : order.Perm (s.replicaState.enumFrom 0)) :
    SameIssue s (maybeSendNewView env s) (maybeSendNewViewOver env s order) := by
  rw [maybeSendNewView_eq_issueWith, collectVotes_eq_over]
  unfold maybeSendNewViewOver
  cases hs : alreadySent s with
  | true =>
    simp only [if_true]
    exact Or.inr (Or.inl ⟨rfl, rfl⟩)
  | false =>
    simp only [Bool.false_eq_true, if_false]
    obtain ⟨p1, p2⟩ := collectVotesOver_perm s.view order _ hord
    exact issueWith_perm env s _ _ p1 (hperm _ _ p2)

theorem voteAuthentic_congr (env : Env) (nv nv' : NewView) (h : nv'.View = nv.View)
    (e : Nat × Option Signed) : VoteAuthentic env nv' e ↔ VoteAuthentic env nv e := by
  unfold VoteAuthentic
  rw [h]

theorem eraseText_eq_accepted (v : Verdict) :
    eraseText v = Verdict.accepted ↔ v = Verdict.accepted := by
  cases v with
  | rejected r => cases r <;> simp [eraseText]
  | _ => simp [eraseText]

theorem checkContent_perm (env : Env) (nv nv' : NewView) (hperm : PermInvariant env)
    (hsame : SameCertificate nv nv') :
    eraseText (checkContent env nv') = eraseText (checkContent env nv) := by
  obtain ⟨hV, hVs, hX, hB⟩ := hsame
  have hauth : (∀ e ∈ nv'.Vset, VoteAuthentic env nv' e) ↔
      (∀ e ∈ nv.Vset, VoteAuthentic env nv e) := by
    constructor
    · intro h e he
      exact (voteAuthentic_congr env nv nv' hV e).1 (h e (hVs.mem_iff.2 he))
    · intro h e he
      exact (voteAuthentic_congr env nv nv' hV e).2 (h e (hVs.mem_iff.1 he))
  unfold checkContent
  cases hsig : checkNewViewSignatures env nv with
  | error e =>
    cases hsig' : checkNewViewSignatures env nv' with
    | error e' => rfl
    | ok vcs' =>
      have h1 := ((checkNewViewSignatures_ok_iff env nv' vcs').1 hsig').1
      have h2 := (checkNewViewSignatures_ok_iff env nv (decodedVotes env nv)).2
        ⟨hauth.1 h1, rfl⟩
      rw [hsig] at h2
      cases h2
  | ok vcs =>
    obtain ⟨ha, hvcs⟩ := (checkNewViewSignatures_ok_iff env nv vcs).1 hsig
    have hsig' := (checkNewViewSignatures_ok_iff env nv' (decodedVotes env nv')).2
      ⟨hauth.2 ha, rfl⟩
    have hmk : env.makeXset (decodedVotes env nv') = env.makeXset vcs := by
      rw [hvcs]
      exact hperm _ _ (List.Perm.filterMap _ hVs)
    have hcd : ∀ b nb, checkDigest env nv' b nb = checkDigest env nv b nb := by
      intro b nb
      unfold checkDigest
      rw [hX]
    simp only [hsig', hB, hX, hmk, hcd]

theorem isStale_congr (onv : Option NewView) (nv nv' : NewView) (h : nv'.View = nv.View) :
    isStale onv nv' = isStale onv nv := by
  unfold isStale
  rw [h]

theorem validateNewView_perm (env : Env) (s : SBFT) (nv nv' : NewView) (src : Nat)
    (hperm : PermInvariant env) (hsame : SameCertificate nv nv') :
    eraseText (validateNewView env s nv' src) = eraseText (validateNewView env s nv src) := by
  have hV := hsame.1
  unfold validateNewView
  rw [hV]
  by_cases hsrc : src = env.primaryIDView nv.View
  · simp only [hsrc, ne_eq, not_true_eq_false, if_false]
    cases hr : s.replicaState[env.primaryIDView nv.View]? with
    | none => rfl
    | some r =>
      simp only [isStale_congr r.newview nv nv' hV]
      cases hst : isStale r.newview nv with
      | true => rfl
      | false =>
        simp only [Bool.false_eq_true, if_false]
        exact checkContent_perm env nv nv' hperm hsame
  · simp only [ne_eq, hsrc, not_false_eq_true, if_true]

theorem handleNewView_eq_of_eraseText (env : Env) (s : SBFT) (nv nv' : NewView) (src : Nat)
    (h : eraseText (validateNewView env s nv' src) = eraseText (validateNewView env s nv src))
    (hna : validateNewView env s nv src ≠ Verdict.accepted) :
    handleNewView env s nv' src = handleNewView env s nv src := by
  unfold handleNewView
  cases hv : validateNewView env s nv src with
  | accepted => exact absurd hv hna
  | forged =>
    rw [hv] at h
    cases hv' : validateNewView env s nv' src with
    | rejected r => rw [hv'] at h; cases r <;> simp [eraseText] at h
    | forged => rfl
    | _ => simp [hv', eraseText] at h
  | stale =>
    rw [hv] at h
    cases hv' : validateNewView env s nv' src with
    | rejected r => rw [hv'] at h; cases r <;> simp [eraseText] at h
    | stale => rfl
    | _ => simp [hv', eraseText] at h
  | fault =>
    rw [hv] at h
    cases hv' : validateNewView env s nv' src with
    | rejected r => rw [hv'] at h; cases r <;> simp [eraseText] at h
    | fault => rfl
    | _ => simp [hv', eraseText] at h
  | rejected r0 =>
    rw [hv] at h
    cases hv' : validateNewView env s nv' src with
    | rejected r => rfl
    | _ => rw [hv'] at h; cases r0 <;> simp [eraseText] at h

theorem recordNewView_rerecord (env : Env) (s : SBFT) (nv nv' : NewView)
    (h : nv'.View = nv.View) :
    recordNewView env (recordNewView env s nv) nv' = recordNewView env s nv' := by
  unfold recordNewView
  simp only [h, List.modify_modify_eq]
  rfl

theorem advanceView_recordNewView (env : Env) (s : SBFT) (nv nv0 : NewView) :
    advanceView (recordNewView env s nv0) nv = recordNewView env (advanceView s nv) nv0 := by
  unfold advanceView
  by_cases hgt : nv.View > s.view
  · have h1 : nv.View > (recordNewView env s nv0).view := hgt
    simp only [h1, hgt, if_true]
    rfl
  · have h1 : ¬ nv.View > (recordNewView env s nv0).view := hgt
    simp only [h1, hgt, if_false]

theorem advanceView_congr (s : SBFT) (nv nv' : NewView) (h : nv'.View = nv.View) :
    advanceView s nv' = advanceView s nv := by
  unfold advanceView
  rw [h]

theorem processNewView_rerecord (env : Env) (s : SBFT) (nv nv' : NewView)
    (hpid : PrimaryByView env)
    (hst : storedNewView s (env.primaryIDView nv.View) = some nv)
    (hV : nv'.View = nv.View) (hB : nv'.Batch = nv.Batch) :
    processNewView env (recordNewView env s nv') =
      (processNewView env s).map (fun o => (recordNewView env o.1 nv', o.2)) := by
  unfold storedNewView at hst
  cases hr : s.replicaState[env.primaryIDView nv.View]? with
  | none => simp [hr] at hst
  | some r =>
    simp only [hr] at hst
    unfold processNewView
    have hact : (recordNewView env s nv').activeView = s.activeView := rfl
    have hview : (recordNewView env s nv').view = s.view := rfl
    rw [hact, hview]
    cases ha : s.activeView with
    | true => simp
    | false =>
      simp only [Bool.false_eq_true, if_false]
      by_cases hq : env.primaryIDView nv.View = env.primaryIDView s.view
      · have hl : (recordNewView env s nv').replicaState[env.primaryIDView s.view]? =
            some { r with newview := some nv' } := by
          simp only [recordNewView, hV, hq]
          rw [List.getElem?_modify_eq, ← hq, hr]
          rfl
        rw [hl, ← hq, hr]
        simp only [hst, hV, hB]
        by_cases hv : nv.View = s.view
        · simp only [hv, ne_eq, not_true_eq_false, if_false]
          cases hb : nv.Batch with
          | none => rfl
          | some b =>
            simp only
            cases hh : env.DecodeHeader b with
            | none => rfl
            | some hd =>
              simp only [Option.map_some', Option.some.injEq, Prod.mk.injEq]
              refine ⟨rfl, ?_⟩
              congr 1
              congr 1
              exact hpid _ _ rfl
        · simp only [ne_eq, hv, not_false_eq_true, if_true, Option.map_some']
      · have hl : (recordNewView env s nv').replicaState[env.primaryIDView s.view]? =
            s.replicaState[env.primaryIDView s.view]? := by
          simp only [recordNewView, hV]
          exact List.getElem?_modify_ne _ _ hq
        rw [hl]
        cases hr2 : s.replicaState[env.primaryIDView s.view]? with
        | none => rfl
        | some r2 =>
          simp only
          cases hn : r2.newview with
          | none => rfl
          | some nv2 =>
            simp only
            by_cases hv : nv2.View = s.view
            · simp only [hv, ne_eq, not_true_eq_false, if_false]
              cases hb : nv2.Batch with
              | none => rfl
              | some b =>
                simp only
                cases hh : env.DecodeHeader b with
                | none => rfl
                | some hd =>
                  simp only [Option.map_some', Option.some.injEq, Prod.mk.injEq]
                  refine ⟨rfl, ?_⟩
                  congr 1
                  congr 1
                  exact hpid _ _ rfl
            · simp only [ne_eq, hv, not_false_eq_true, if_true, Option.map_some']

theorem handleNewView_perm_accepted (env : Env) (s : SBFT) (nv nv' : NewView) (src : Nat)
    (hperm : PermInvariant env) (hpid : PrimaryByView env) (hsame : SameCertificate nv nv')
    (hacc : validateNewView env s nv src = Verdict.accepted) :
    handleNewView env s nv' src =
      (handleNewView env s nv src).map (fun o => (recordNewView env o.1 nv', o.2)) := by
  have hacc' : validateNewView env s nv' src = Verdict.accepted := by
    have h := validateNewView_perm env s nv nv' src hperm hsame
    rw [hacc] at h
    exact (eraseText_eq_accepted _).1 h
  obtain ⟨_, ⟨r, hr, _⟩, _⟩ := (validateNewView_accepted_iff env s nv src).1 hacc
  have hst : storedNewView (advanceView (recordNewView env s nv) nv)
      (env.primaryIDView nv.View) = some nv := by
    have h0 := storedNewView_recordNewView env s nv r hr
    unfold storedNewView at h0 ⊢
    rw [advanceView_replicaState]
    exact h0
  have hst' : advanceView (recordNewView env s nv') nv' =
      recordNewView env (advanceView (recordNewView env s nv) nv) nv' := by
    rw [advanceView_congr _ nv nv' hsame.1, advanceView_recordNewView,
      advanceView_recordNewView, recordNewView_rerecord env _ nv nv' hsame.1]
  rw [handleNewView_of_accepted env s nv' src hacc', handleNewView_of_accepted env s nv src hacc,
    hst']
  exact processNewView_rerecord env _ nv nv' hpid hst hsame.1 hsame.2.2.2

/-- C15: let `nv'` be the certificate `nv` with the entries of its `Vset` enumerated in
another order, and let `order` be another order of visiting the records of
`replicaState`. With a resolver that is insensitive to the order of the votes
(and `primaryID()` reading only the view), `handleNewView` reaches the same
verdict on both, up to the entry and text of a signature error; when the verdict
is not acceptance the final state and the calls are the same; when it is
acceptance, the calls, `view` and `activeView` are the same and the final
`replicaState` differs only in holding the certificate as `nv'`; and
`maybeSendNewView` faults, stays silent or broadcasts the same certificate under
both orders of visiting the records. -/
theorem iteration_order_independence (env : Env) (s : SBFT) (nv nv' : NewView) (src : Nat)
    (order : List (Nat × ReplicaInfo)) (hperm : PermInvariant env) (hpid : PrimaryByView env)
    (hsame : SameCertificate nv nv') (hord : order.Perm (s.replicaState.enumFrom 0)) :
    eraseText (validateNewView env s nv' src) = eraseText (validateNewView env s nv src) ∧
      (validateNewView env s nv src ≠ Verdict.accepted →
        handleNewView env s nv' src = handleNewView env s nv src) ∧
      (validateNewView env s nv src = Verdict.accepted →
        handleNewView env s nv' src =
          (handleNewView env s nv src).map (fun o => (recordNewView env o.1 nv', o.2))) ∧
      SameIssue s (maybeSendNewView env s) (maybeSendNewViewOver env s order) :=
  ⟨validateNewView_perm env s nv nv' src hperm hsame,
    handleNewView_eq_of_eraseText env s nv nv' src
      (validateNewView_perm env s nv nv' src hperm hsame),
    handleNewView_perm_accepted env s nv nv' src hperm hpid hsame,
    maybeSendNewViewOver_perm env s order hperm hord⟩

theorem Sample.nullEnv_primaryByView : PrimaryByView Sample.nullEnv := by
  intro s1 s2 h
  show s1.view % 4 = s2.view % 4
  rw [h]

/-- C15 at the sample primary of view 2: the null certificate with its `Vset` in another
order is handled alike, and visiting the records in another order issues the same
certificate. -/
theorem iteration_order_independence_witness :
    validateNewView Sample.nullEnv Sample.quorate Sample.nullCert 2 = Verdict.accepted ∧
      handleNewView Sample.nullEnv Sample.quorate Sample.shuffledCert 2 =
        (handleNewView Sample.nullEnv Sample.quorate Sample.nullCert 2).map
          (fun o => (recordNewView Sample.nullEnv o.1 Sample.shuffledCert, o.2)) ∧
      SameIssue Sample.quorate (maybeSendNewView Sample.nullEnv Sample.quorate)
        (maybeSendNewViewOver Sample.nullEnv Sample.quorate
          [(3, Sample.voted 3 2), (0, Sample.voted 0 2), (2, Sample.blank),
            (1, Sample.voted 1 2)]) :=
  have h := iteration_order_independence Sample.nullEnv Sample.quorate Sample.nullCert
    Sample.shuffledCert 2
    [(3, Sample.voted 3 2), (0, Sample.voted 0 2), (2, Sample.blank), (1, Sample.voted 1 2)]
    Sample.nullEnv_permInvariant Sample.nullEnv_primaryByView ⟨rfl, by decide, rfl, rfl⟩
    (by decide)
  ⟨by decide, h.2.2.1 (by decide), h.2.2.2⟩

/-! ## Which failures file a vote -/

theorem handleNewView_of_rejected (env : Env) (s : SBFT) (nv : NewView) (src : Nat) (r : Reject)
    (h : validateNewView env s nv src = Verdict.rejected r) :
    handleNewView env s nv src = some (s, [Event.sendViewChange]) := by
  simp [handleNewView, h]

theorem processNewView_no_vote (env : Env) (s s' : SBFT) (tr : List Event)
    (h : processNewView env s = some (s', tr)) : Event.sendViewChange ∉ tr := by
  unfold processNewView at h
  cases ha : s.activeView with
  | true =>
    simp only [ha, if_true, Option.some.injEq, Prod.mk.injEq] at h
    rw [← h.2]
    simp
  | false =>
    simp only [ha, Bool.false_eq_true, if_false] at h
    cases hr : s.replicaState[env.primaryIDView s.view]? with
    | none => simp [hr] at h
    | some r =>
      simp only [hr] at h
      cases hn : r.newview with
      | none =>
        simp only [hn, Option.some.injEq, Prod.mk.injEq] at h
        rw [← h.2]
        simp
      | some nv =>
        simp only [hn] at h
        by_cases hv : nv.View = s.view
        · simp only [hv, ne_eq, not_true_eq_false, if_false] at h
          cases hb : nv.Batch with
          | none => simp [hb] at h
          | some b =>
            simp only [hb] at h
            cases hh : env.DecodeHeader b with
            | none => simp [hh] at h
            | some hd =>
              simp only [hh, Option.some.injEq, Prod.mk.injEq] at h
              rw [← h.2]
              simp
        · simp only [ne_eq, hv, not_false_eq_true, if_true, Option.some.injEq,
            Prod.mk.injEq] at h
          rw [← h.2]
          simp

/-- C16 as stated fails: at the sample replica a certificate, here one with an altered
decision, that comes from replica 3 and not from the primary 2 of its view is
dropped without a `sendViewChange` call. -/
theorem forged_source_files_no_vote_counterexample :
    3 ≠ Sample.env.primaryIDView Sample.alteredCert.View ∧
      handleNewView Sample.env Sample.start Sample.alteredCert 3 = some (Sample.start, []) ∧
      Event.sendViewChange ∉ ([] : List Event) := by
  decide

/-- C16, amended: `handleNewView` calls `sendViewChange` exactly when one of the content
checks (vote authenticity, batch presence, decision re-derivation, digest
consistency, batch validation) fails, and then once, leaving the state as it is;
a certificate from a sender that is not the primary of its view is dropped with
the state unchanged and without any call, as is a stale one. -/
theorem handleNewView_vote_filing (env : Env) (s : SBFT) (nv : NewView) (src : Nat) :
    (src ≠ env.primaryIDView nv.View →
      validateNewView env s nv src = Verdict.forged ∧
        handleNewView env s nv src = some (s, [])) ∧
    (∀ r, validateNewView env s nv src = Verdict.rejected r →
      handleNewView env s nv src = some (s, [Event.sendViewChange])) ∧
    (∀ s' tr, handleNewView env s nv src = some (s', tr) →
      (Event.sendViewChange ∈ tr ↔ ∃ r, validateNewView env s nv src = Verdict.rejected r)) ∧
    (ResolverSynthesizes env → src = env.primaryIDView nv.View → Fresh env s nv →
      ContentFails env nv → ∃ r, validateNewView env s nv src = Verdict.rejected r) ∧
    (∀ r, validateNewView env s nv src = Verdict.rejected r →
      src = env.primaryIDView nv.View ∧ Fresh env s nv ∧ ¬ ContentValid env nv) := by
  refine ⟨?_, fun r h => handleNewView_of_rejected env s nv src r h, ?_, ?_, ?_⟩
  · intro h
    have hv : validateNewView env s nv src = Verdict.forged := by
      simp [validateNewView, h]
    exact ⟨hv, by simp [handleNewView, hv]⟩
  · intro s' tr hres
    cases hv : validateNewView env s nv src with
    | rejected r =>
      rw [handleNewView_of_rejected env s nv src r hv] at hres
      simp only [Option.some.injEq, Prod.mk.injEq] at hres
      rw [← hres.2]
      simp
    | accepted =>
      rw [handleNewView_of_accepted env s nv src hv] at hres
      have := processNewView_no_vote env _ s' tr hres
      simp [this]
    | forged =>
      simp only [handleNewView, hv, Option.some.injEq, Prod.mk.injEq] at hres
      rw [← hres.2]
      simp
    | stale =>
      simp only [handleNewView, hv, Option.some.injEq, Prod.mk.injEq] at hres
      rw [← hres.2]
      simp
    | fault => simp [handleNewView, hv] at hres
  · intro hres hsrc hfresh hbad
    subst hsrc
    have hv := validateNewView_of_fresh env s nv hfresh
    have hnv : checkContent env nv ≠ Verdict.accepted := fun h =>
      contentFails_not_valid env nv hbad ((checkContent_accepted_iff env nv).1 h)
    rcases checkContent_cases env nv hres with hc | ⟨r, hc⟩
    · exact absurd hc hnv
    · exact ⟨r, by rw [hv, hc]⟩
  · intro r hrej
    unfold validateNewView at hrej
    by_cases hsrc : src = env.primaryIDView nv.View
    · simp only [hsrc, ne_eq, not_true_eq_false, if_false] at hrej
      cases hr : s.replicaState[env.primaryIDView nv.View]? with
      | none => simp [hr] at hrej
      | some r0 =>
        simp only [hr] at hrej
        cases hst : isStale r0.newview nv with
        | true => simp [hst] at hrej
        | false =>
          simp only [hst, Bool.false_eq_true, if_false] at hrej
          refine ⟨hsrc, ⟨r0, hr, (isStale_false_iff r0.newview nv).1 hst⟩, ?_⟩
          intro hval
          rw [(checkContent_accepted_iff env nv).2 hval] at hrej
          cases hrej
    · simp [hsrc] at hrej

/-- C16, amended, at the sample replica: from replica 3 the altered certificate is dropped
silently, from the primary 2 it makes the replica file a vote. -/
theorem handleNewView_vote_filing_witness :
    (validateNewView Sample.env Sample.start Sample.alteredCert 3 = Verdict.forged ∧
        handleNewView Sample.env Sample.start Sample.alteredCert 3 = some (Sample.start, [])) ∧
      handleNewView Sample.env Sample.start Sample.alteredCert 2 =
        some (Sample.start, [Event.sendViewChange]) :=
  ⟨(handleNewView_vote_filing Sample.env Sample.start Sample.alteredCert 3).1 (by decide),
    (handleNewView_vote_filing Sample.env Sample.start Sample.alteredCert 2).2.1
      Reject.xsetIncorrect (by decide)⟩

/-! ## The backlog discarded on activation -/

/-- C17 as stated fails: the sample replica in view 2 (primary 2) accepts the certificate
for view 5 (primary 1) and activates; with `primaryID()` the primary of the
current view, the one `discardBacklog` call names replica 1, the primary of the
new view, not replica 2. -/
theorem discardBacklog_new_primary_counterexample :
    PrimaryOfCurrentView Sample.env ∧
      validateNewView Sample.env Sample.start Sample.laterCert 1 = Verdict.accepted ∧
      Sample.laterCert.View > Sample.start.view ∧
      Sample.env.primaryIDView Sample.start.view = 2 ∧
      (handleNewView Sample.env Sample.start Sample.laterCert 1).map (fun o => o.2) =
        some [Event.discardBacklog 1,
          Event.handleCheckedPreprepare
            { Seq := some { Seq := 0, View := 5 }, Batch := some Sample.nullBatch },
          Event.processBacklog] :=
  ⟨fun _ => rfl, by decide, by decide, by decide, by decide⟩

/-- C17, amended: when `handleNewView` accepts `nv` with `nv.View` greater than the old
view and the header of its batch decodes, the calls made are, in this order, one
`discardBacklog`, the proposal fed to `handleCheckedPreprepare`, and
`processBacklog`; with `primaryID()` the primary of the current view, the id
discarded is `primaryIDView(nv.View)`, the primary of the view being entered. -/
theorem handleNewView_discards_backlog (env : Env) (s : SBFT) (nv : NewView) (src : Nat)
    (b : Batch) (h : BatchHeader) (hpid : PrimaryOfCurrentView env)
    (hacc : validateNewView env s nv src = Verdict.accepted) (hgt : nv.View > s.view)
    (hb : nv.Batch = some b) (hh : env.DecodeHeader b = some h) :
    ∃ s', handleNewView env s nv src =
      some (s', [Event.discardBacklog (env.primaryIDView nv.View),
        Event.handleCheckedPreprepare (proposalFor b h nv.View), Event.processBacklog]) := by
  obtain ⟨hf, hv, _⟩ := handleNewView_accepted_fires env s nv src b h hacc (Or.inl hgt) hb hh
  have hid : env.primaryID { advanceView (recordNewView env s nv) nv with activeView := true } =
      env.primaryIDView nv.View := by
    rw [hpid]
    show env.primaryIDView (advanceView (recordNewView env s nv) nv).view = _
    rw [hv]
  rw [hid] at hf
  exact ⟨_, hf⟩

/-- C17, amended, at the sample replica in view 2 accepting the certificate for view 5. -/
theorem handleNewView_discards_backlog_witness :
    ∃ s', handleNewView Sample.env Sample.start Sample.laterCert 1 =
      some (s', [Event.discardBacklog 1,
        Event.handleCheckedPreprepare
          (proposalFor Sample.nullBatch { Seq := 0, PrevHash := none, DataHash := none } 5),
        Event.processBacklog]) :=
  handleNewView_discards_backlog Sample.env Sample.start Sample.laterCert 1 Sample.nullBatch
    { Seq := 0, PrevHash := none, DataHash := none } (fun _ => rfl) (by decide) (by decide)
    rfl rfl

/-! ## The message of a forfeiting primary -/

theorem checkContent_noBatch (env : Env) (nv : NewView) (hb : nv.Batch = none) :
    (∃ i e, checkContent env nv = Verdict.rejected (Reject.signatures i e)) ∨
      checkContent env nv = Verdict.rejected Reject.noBatch := by
  unfold checkContent
  cases hsig : checkNewViewSignatures env nv with
  | error e => exact Or.inl ⟨e.1, e.2, rfl⟩
  | ok vcs =>
    simp only [hb]
    exact Or.inr trivial

theorem handleNewView_not_accepted_trace (env : Env) (s s' : SBFT) (nv : NewView) (src : Nat)
    (tr : List Event) (h : validateNewView env s nv src ≠ Verdict.accepted)
    (hr : handleNewView env s nv src = some (s', tr)) :
    s' = s ∧ (tr = [] ∨ tr = [Event.sendViewChange]) := by
  unfold handleNewView at hr
  cases hv : validateNewView env s nv src with
  | accepted => exact absurd hv h
  | forged =>
    simp only [hv, Option.some.injEq, Prod.mk.injEq] at hr
    exact ⟨hr.1.symm, Or.inl hr.2.symm⟩
  | stale =>
    simp only [hv, Option.some.injEq, Prod.mk.injEq] at hr
    exact ⟨hr.1.symm, Or.inl hr.2.symm⟩
  | rejected r =>
    simp only [hv, Option.some.injEq, Prod.mk.injEq] at hr
    exact ⟨hr.1.symm, Or.inr hr.2.symm⟩
  | fault => simp [hv] at hr

/-- C18: the message a forfeiting primary assembles (no decision, no batch), in whatever
order its `Vset` is enumerated, is accepted by no replica from no sender: the
checks end at the source, freshness, signature or batch-presence check (or in a
fault of the record lookup), the state of the receiver is left as it is, nothing
is recorded, no view is activated and no proposal is emitted. -/
theorem forfeit_message_never_accepted (env : Env) (si s : SBFT) (nv : NewView) (src : Nat)
    (hsame : SameCertificate (forfeitMessage si) nv) :
    validateNewView env s nv src ≠ Verdict.accepted ∧
      (validateNewView env s nv src = Verdict.forged ∨
        validateNewView env s nv src = Verdict.stale ∨
        validateNewView env s nv src = Verdict.fault ∨
        (∃ i e, validateNewView env s nv src = Verdict.rejected (Reject.signatures i e)) ∨
        validateNewView env s nv src = Verdict.rejected Reject.noBatch) ∧
      (∀ s' tr, handleNewView env s nv src = some (s', tr) → s' = s ∧ proposals tr = []) := by
  have hb : nv.Batch = none := hsame.2.2.2
  have hcases : validateNewView env s nv src = Verdict.forged ∨
      validateNewView env s nv src = Verdict.stale ∨
      validateNewView env s nv src = Verdict.fault ∨
      (∃ i e, validateNewView env s nv src = Verdict.rejected (Reject.signatures i e)) ∨
      validateNewView env s nv src = Verdict.rejected Reject.noBatch := by
    unfold validateNewView
    by_cases hsrc : src = env.primaryIDView nv.View
    · simp only [hsrc, ne_eq, not_true_eq_false, if_false]
      cases hr : s.replicaState[env.primaryIDView nv.View]? with
      | none => exact Or.inr (Or.inr (Or.inl rfl))
      | some r =>
        simp only
        cases hst : isStale r.newview nv with
        | true => exact Or.inr (Or.inl rfl)
        | false =>
          simp only [Bool.false_eq_true, if_false]
          rcases checkContent_noBatch env nv hb with h | h
          · exact Or.inr (Or.inr (Or.inr (Or.inl h)))
          · exact Or.inr (Or.inr (Or.inr (Or.inr h)))
    · simp only [ne_eq, hsrc, not_false_eq_true, if_true]
      exact Or.inl trivial
  have hna : validateNewView env s nv src ≠ Verdict.accepted := by
    intro h
    rcases hcases with h1 | h1 | h1 | ⟨i, e, h1⟩ | h1 <;> rw [h] at h1 <;> cases h1
  refine ⟨hna, hcases, ?_⟩
  intro s' tr hres
  obtain ⟨h1, h2⟩ := handleNewView_not_accepted_trace env s s' nv src tr hna hres
  refine ⟨h1, ?_⟩
  rcases h2 with h2 | h2 <;> rw [h2] <;> rfl

/-- C18 at the sample replicas: the message of the sample forfeiting primary, delivered by
the primary of view 2, stops at the batch-presence check. -/
theorem forfeit_message_never_accepted_witness :
    validateNewView Sample.env Sample.start (forfeitMessage Sample.forfeiting) 2 =
        Verdict.rejected Reject.noBatch ∧
      validateNewView Sample.env Sample.start (forfeitMessage Sample.forfeiting) 2 ≠
        Verdict.accepted :=
  ⟨by decide,
    (forfeit_message_never_accepted Sample.env Sample.forfeiting Sample.start
      (forfeitMessage Sample.forfeiting) 2 ⟨rfl, List.Perm.refl _, rfl, rfl⟩).1⟩

/-! ## The certificate that justifies the active view -/

theorem processNewView_justified (env : Env) (s s' : SBFT) (tr : List Event)
    (hj : Justified env s) (h : processNewView env s = some (s', tr)) : Justified env s' := by
  unfold processNewView at h
  cases ha : s.activeView with
  | true =>
    simp only [ha, if_true, Option.some.injEq, Prod.mk.injEq] at h
    rw [← h.1]
    exact hj
  | false =>
    simp only [ha, Bool.false_eq_true, if_false] at h
    cases hr : s.replicaState[env.primaryIDView s.view]? with
    | none => simp [hr] at h
    | some r =>
      simp only [hr] at h
      cases hn : r.newview with
      | none =>
        simp only [hn, Option.some.injEq, Prod.mk.injEq] at h
        rw [← h.1]
        exact hj
      | some nv =>
        simp only [hn] at h
        by_cases hv : nv.View = s.view
        · simp only [hv, ne_eq, not_true_eq_false, if_false] at h
          cases hb : nv.Batch with
          | none => simp [hb] at h
          | some b =>
            simp only [hb] at h
            cases hh : env.DecodeHeader b with
            | none => simp [hh] at h
            | some hd =>
              simp only [hh, Option.some.injEq, Prod.mk.injEq] at h
              rw [← h.1]
              intro _
              refine ⟨nv, ?_, hv⟩
              simp [storedNewView, hr, hn]
        · simp only [ne_eq, hv, not_false_eq_true, if_true, Option.some.injEq,
            Prod.mk.injEq] at h
          rw [← h.1]
          exact hj

theorem accepted_other_record (env : Env) (s : SBFT) (nv : NewView) (src : Nat)
    (hj : Justified env s) (ha : s.activeView = true)
    (hacc : validateNewView env s nv src = Verdict.accepted) (hle : nv.View ≤ s.view) :
    env.primaryIDView nv.View ≠ env.primaryIDView s.view := by
  intro hq
  obtain ⟨onv, hst, hv⟩ := hj ha
  obtain ⟨_, ⟨r, hr, hfresh⟩, _⟩ := (validateNewView_accepted_iff env s nv src).1 hacc
  unfold storedNewView at hst
  rw [← hq, hr] at hst
  simp only at hst
  rcases hfresh with hnone | ⟨o, ho, hlt⟩
  · rw [hnone] at hst
    cases hst
  · rw [ho] at hst
    cases hst
    omega

theorem storedNewView_recordNewView_ne (env : Env) (s : SBFT) (nv : NewView) (q : Nat)
    (h : env.primaryIDView nv.View ≠ q) :
    storedNewView (recordNewView env s nv) q = storedNewView s q := by
  unfold storedNewView recordNewView
  simp only [List.getElem?_modify_ne _ _ h]

/-- C19: the predicate "if `activeView` is true, the record of `primaryIDView(view)` holds
a certificate whose `View` is `view`" is preserved by `processNewView` and by every
`handleNewView` call that does not call `sendViewChange`; and when a replica with
an active, justified view accepts a certificate for a view not above its own, the
certificate stored for the primary of its view stays the same, as do `view` and
`activeView`. -/
theorem justified_preserved (env : Env) (s : SBFT) (hj : Justified env s) :
    (∀ s' tr, processNewView env s = some (s', tr) → Justified env s') ∧
    (∀ nv src s' tr, handleNewView env s nv src = some (s', tr) →
      Event.sendViewChange ∉ tr → Justified env s') ∧
    (∀ nv src s' tr, s.activeView = true →
      validateNewView env s nv src = Verdict.accepted → nv.View ≤ s.view →
      handleNewView env s nv src = some (s', tr) →
      storedNewView s' (env.primaryIDView s.view) = storedNewView s (env.primaryIDView s.view) ∧
        s'.view = s.view ∧ s'.activeView = true ∧ tr = []) := by
  refine ⟨fun s' tr h => processNewView_justified env s s' tr hj h, ?_, ?_⟩
  · intro nv src s' tr hres _
    by_cases hacc : validateNewView env s nv src = Verdict.accepted
    · rw [handleNewView_of_accepted env s nv src hacc] at hres
      refine processNewView_justified env _ s' tr ?_ hres
      by_cases hgt : nv.View > s.view
      · intro hact
        have hfalse : (advanceView (recordNewView env s nv) nv).activeView = false := by
          unfold advanceView
          have : nv.View > (recordNewView env s nv).view := hgt
          simp [this]
        rw [hfalse] at hact
        cases hact
      · have hadv : advanceView (recordNewView env s nv) nv = recordNewView env s nv := by
          unfold advanceView
          have : ¬ nv.View > (recordNewView env s nv).view := hgt
          simp [this]
        rw [hadv]
        intro hact
        have ha : s.activeView = true := hact
        obtain ⟨onv, hst, hv⟩ := hj ha
        have hne := accepted_other_record env s nv src hj ha hacc (by omega)
        refine ⟨onv, ?_, hv⟩
        show storedNewView (recordNewView env s nv) (env.primaryIDView s.view) = some onv
        rw [storedNewView_recordNewView_ne env s nv _ hne]
        exact hst
    · rw [handleNewView_of_not_accepted env s s' nv src tr hacc hres]
      exact hj
  · intro nv src s' tr ha hacc hle hres
    rw [handleNewView_of_accepted env s nv src hacc] at hres
    have hadv : advanceView (recordNewView env s nv) nv = recordNewView env s nv := by
      unfold advanceView
      have : ¬ nv.View > (recordNewView env s nv).view := by
        show ¬ nv.View > s.view
        omega
      simp [this]
    rw [hadv] at hres
    have hact : (recordNewView env s nv).activeView = true := ha
    have hp : processNewView env (recordNewView env s nv) = some (recordNewView env s nv, []) := by
      simp [processNewView, hact]
    rw [hp] at hres
    simp only [Option.some.injEq, Prod.mk.injEq] at hres
    obtain ⟨h1, h2⟩ := hres
    subst h1
    have hne := accepted_other_record env s nv src hj ha hacc hle
    exact ⟨storedNewView_recordNewView_ne env s nv _ hne, rfl, ha, h2.symm⟩

/-- C19 at the sample replica active in view 5: it accepts the certificate for view 2 from
replica 2, and the certificate for view 5 in the record of replica 1 stays. -/
theorem justified_preserved_witness :
    validateNewView Sample.env Sample.inViewFive Sample.nullCert 2 = Verdict.accepted ∧
      ∃ s' tr, handleNewView Sample.env Sample.inViewFive Sample.nullCert 2 = some (s', tr) ∧
        storedNewView s' 2 = some Sample.nullCert ∧
        storedNewView s' (Sample.env.primaryIDView Sample.inViewFive.view) =
          storedNewView Sample.inViewFive (Sample.env.primaryIDView Sample.inViewFive.view) ∧
        s'.view = Sample.inViewFive.view ∧ s'.activeView = true ∧ tr = [] :=
  ⟨by decide, _, _, rfl, by decide,
    (justified_preserved Sample.env Sample.inViewFive
      (fun _ => ⟨Sample.laterCert, by decide, rfl⟩)).2.2 Sample.nullCert 2 _ _ rfl (by decide)
      (by decide) rfl⟩

end Simplebft
